import Mathlib

/-!
Verification development for the TweetSmash multi-agent bookmark pipeline
(`mcp-server/agents/*.py`).  Python dictionaries are embedded as Lean
structures holding exactly the fields the translated code reads; a field
that may be missing from the dictionary is an `Option`.  Python floats from
the scoring code are embedded as exact rationals (`ℚ`); all score constants
in the source are decimal literals, so this is faithful.  External effects
(GitHub HTTP calls, the E2B sandbox, LLM queries, wall-clock timeouts) are
modelled as oracle parameters: a definition receives the answer the outside
world would give and the control flow around that answer is translated from
the source.
-/

namespace TweetSmash

/-! ## String helpers

Python string primitives used by the agents, re-implemented over character
lists so that they evaluate by kernel reduction.  `strContains s pat`
models Python `pat in s`; `pyToLower` models `str.lower` (ASCII, which is
all the source's fixed keyword lists use).
-/

def charsHasPre : List Char → List Char → Bool
  | [], _ => true
  | _ :: _, [] => false
  | p :: ps, c :: cs => p == c && charsHasPre ps cs

def charsContains (s pat : List Char) : Bool :=
  charsHasPre pat s || (match s with
    | [] => false
    | _ :: t => charsContains t pat)

def strContains (s pat : String) : Bool := charsContains s.data pat.data

def strStarts (s pat : String) : Bool := charsHasPre pat.data s.data

def pyToLower (s : String) : String := String.mk (s.data.map Char.toLower)

/-- Python `str.strip()` restricted to ASCII whitespace, as used on
sandbox outputs. -/
def pyStrip (s : String) : String :=
  String.mk (((s.data.dropWhile Char.isWhitespace).reverse.dropWhile Char.isWhitespace).reverse)

/-- Python `s.rstrip(chars)`: removes any trailing characters belonging to
the character set `chars` (NOT a suffix removal). -/
def pyRstripSet (s : String) (chars : List Char) : String :=
  String.mk ((s.data.reverse.dropWhile (fun c => chars.contains c)).reverse)

/-- First-occurrence deduplication, used to model Python `set(...)` /
dict-key collection where only the resulting element set matters. -/
def pyUnique (l : List String) : List String :=
  l.foldl (fun acc x => if acc.contains x then acc else acc ++ [x]) []

/-- Counting occurrences into an association list, keys in first-seen
order: models building a Python counting dict. -/
def tally (l : List String) : List (String × Nat) :=
  l.foldl (fun acc x =>
    if acc.any (fun p => p.1 == x) then
      acc.map (fun p => if p.1 == x then (p.1, p.2 + 1) else p)
    else acc ++ [(x, 1)]) []

/-- Code-point comparison of strings, the order Python `sorted` uses on
`str` values. -/
def charsLeB : List Char → List Char → Bool
  | [], _ => true
  | _ :: _, [] => false
  | a :: as, b :: bs =>
    if a.toNat < b.toNat then true
    else if b.toNat < a.toNat then false
    else charsLeB as bs

def strLe (a b : String) : Prop := charsLeB a.data b.data = true

instance strLe.decidableRel : DecidableRel strLe := fun a b => by
  unfold strLe; infer_instance

theorem charsLeB_total : ∀ a b : List Char, charsLeB a b = true ∨ charsLeB b a = true := by
  intro a
  induction a with
  | nil => intro b; left; rfl
  | cons x xs ih =>
    intro b
    cases b with
    | nil => right; rfl
    | cons y ys =>
      by_cases hxy : x.toNat < y.toNat
      · left; simp [charsLeB, hxy]
      · by_cases hyx : y.toNat < x.toNat
        · right; simp [charsLeB, hyx]
        · rcases ih ys with h | h
          · left; simp [charsLeB, hxy, hyx, h]
          · right; simp [charsLeB, hxy, hyx, h]

theorem charsLeB_trans : ∀ a b c : List Char,
    charsLeB a b = true → charsLeB b c = true → charsLeB a c = true := by
  intro a
  induction a with
  | nil => intro b c _ _; rfl
  | cons x xs ih =>
    intro b c hab hbc
    cases b with
    | nil => simp [charsLeB] at hab
    | cons y ys =>
      cases c with
      | nil => simp [charsLeB] at hbc
      | cons z zs =>
        simp only [charsLeB] at hab hbc ⊢
        rcases Nat.lt_trichotomy x.toNat y.toNat with h1 | h1 | h1
        · rcases Nat.lt_trichotomy y.toNat z.toNat with h2 | h2 | h2
          · simp [Nat.lt_trans h1 h2]
          · simp [h2 ▸ h1]
          · simp [Nat.lt_asymm h2, h2] at hbc
        · rcases Nat.lt_trichotomy y.toNat z.toNat with h2 | h2 | h2
          · simp [h1 ▸ h2]
          · have hab' : charsLeB xs ys = true := by
              simpa [h1, Nat.lt_irrefl] using hab
            have hbc' : charsLeB ys zs = true := by
              simpa [h2, Nat.lt_irrefl] using hbc
            simp [h1.trans h2, Nat.lt_irrefl, ih ys zs hab' hbc']
          · simp [Nat.lt_asymm h2, h2] at hbc
        · simp [Nat.lt_asymm h1, h1] at hab

instance strLe.isTotal : IsTotal String strLe :=
  ⟨fun a b => charsLeB_total a.data b.data⟩

instance strLe.isTrans : IsTrans String strLe :=
  ⟨fun a b c => charsLeB_trans a.data b.data c.data⟩

/-- Folding `+ c` over the elements of a list that pass a test equals
adding `c` once per passing element. -/
theorem foldl_if_add (c : ℚ) (p : String → Bool) :
    ∀ (l : List String) (s : ℚ),
      l.foldl (fun acc t => if p t then acc + c else acc) s
        = s + ((l.filter p).length : ℚ) * c := by
  intro l
  induction l with
  | nil => intro s; simp
  | cons x xs ih =>
    intro s
    by_cases hx : p x
    · simp only [List.foldl_cons, List.filter_cons, hx, if_pos, ih, List.length_cons]
      push_cast
      ring
    · simp only [List.foldl_cons, List.filter_cons, hx, if_neg, Bool.false_eq_true, ih]
      simp [hx]

/-! ## Content analysis agent (`content_analysis_agent.py`)

`Mention` is one entry of the `github_mentions` list built by
`_extract_github_mentions`.  `calculateGithubRelevance` is
`ContentAnalysisAgent._calculate_github_relevance` (lines 255-293).
-/

inductive Mention where
  | repository (owner repo full_name : String)
  | user (username : String)
deriving DecidableEq, Repr

def codeTerms : List String := ["repo", "repository", "code", "project", "open source"]

def announcementTerms : List String := ["released", "launched", "built", "created", "check out"]

def calculateGithubRelevance (text : String) (directUrls : List String)
    (mentions : List Mention) (keywords : List String) : ℚ :=
  let textLower := pyToLower text
  let score : ℚ := 0
  let score := if directUrls.isEmpty then score else score + 8/10
  let score := if mentions.isEmpty then score else score + 6/10
  let score := score + min ((keywords.length : ℚ) * (1/10)) (4/10)
  let score := if strContains textLower "github" then score + 3/10 else score
  let score := codeTerms.foldl
    (fun s term => if strContains textLower term then s + 1/10 else s) score
  let score := announcementTerms.foldl
    (fun s term => if strContains textLower term then s + 15/100 else s) score
  min score 1

/-- The additive relevance formula exactly as the specification words it
(claim C5); to be compared with `calculateGithubRelevance`. -/
def githubRelevanceSpecScore (text : String) (directUrls : List String)
    (mentions : List Mention) (keywords : List String) : ℚ :=
  (if directUrls ≠ [] then 8/10 else 0)
    + (if mentions ≠ [] then 6/10 else 0)
    + min ((keywords.length : ℚ) * (1/10)) (4/10)
    + (if strContains (pyToLower text) "github" then 3/10 else 0)
    + ((codeTerms.filter (fun t => strContains (pyToLower text) t)).length : ℚ) * (1/10)
    + ((announcementTerms.filter (fun t => strContains (pyToLower text) t)).length : ℚ) * (15/100)

/-- C5: for every text, extracted URL list, mention list and keyword list,
`ContentAnalysisAgent._calculate_github_relevance` returns exactly the
spec's additive score — +0.8 for a direct URL, +0.6 for a mention, up to
+0.4 for keywords (0.1 each), +0.3 for a literal "github", +0.1 per generic
code term, +0.15 per announcement term — clamped to at most 1, and the
result always lies in [0, 1]. -/
theorem github_relevance_matches_spec_formula (text : String) (directUrls : List String)
    (mentions : List Mention) (keywords : List String) :
    calculateGithubRelevance text directUrls mentions keywords
        = min (githubRelevanceSpecScore text directUrls mentions keywords) 1
      ∧ 0 ≤ calculateGithubRelevance text directUrls mentions keywords
      ∧ calculateGithubRelevance text directUrls mentions keywords ≤ 1 := by
  have hspec : 0 ≤ githubRelevanceSpecScore text directUrls mentions keywords := by
    unfold githubRelevanceSpecScore
    have h1 : (0:ℚ) ≤ min ((keywords.length : ℚ) * (1/10)) (4/10) := by positivity
    positivity
  have heq : calculateGithubRelevance text directUrls mentions keywords
      = min (githubRelevanceSpecScore text directUrls mentions keywords) 1 := by
    unfold calculateGithubRelevance githubRelevanceSpecScore
    simp only [foldl_if_add]
    rcases he : directUrls with _ | ⟨u, us⟩ <;>
      rcases hm : mentions with _ | ⟨m, ms⟩ <;>
      by_cases hg : strContains (pyToLower text) "github" = true <;>
      simp [hg]
  refine ⟨heq, ?_, ?_⟩
  · rw [heq]; exact le_min hspec (by norm_num)
  · rw [heq]; exact min_le_right _ _

/-! ## Code execution agent: repository selection (`code_execution_agent.py`)

`ExecRepoRecord` is the view of a discovered-repository dictionary holding
the fields `CodeExecutionAgent` reads; an `Option` field models a possibly
missing key.  `selectRepositoriesForExecution` is
`CodeExecutionAgent._select_repositories_for_execution` (lines 117-143):
`repo.get("confidence_score", 0)` / `repo.get("complexity_score", 1.0)`
become `Option.getD` with the same defaults.
-/

structure ExecRepoRecord where
  name : Option String
  full_name : Option String
  html_url : Option String
  description : Option String
  language : Option String
  stargazers_count : Option Nat
  size : Option Nat
  confidence_score : Option ℚ
  complexity_score : Option ℚ
  discovery_method : Option String
  relevance_indicators : List String
deriving Repr

def selectRepositoriesForExecution (repositories : List ExecRepoRecord)
    (strategy : String) (maxRepos : Nat) : List ExecRepoRecord :=
  if strategy == "quick" then
    (repositories.filter (fun repo =>
        decide (repo.confidence_score.getD 0 > 0.7)
          && decide (repo.complexity_score.getD 1.0 < 0.5))).take (min maxRepos 2)
  else if strategy == "thorough" then
    (repositories.filter (fun repo =>
        decide (repo.confidence_score.getD 0 > 0.5))).take maxRepos
  else
    repositories.take maxRepos

/-- C4: the selection policy. Under "quick" the selection is exactly the
confidence>0.7, complexity<0.5 candidates truncated to min(maxRepos, 2); it
is an order-preserving sublist, every selected record satisfies both
bounds, and no record with complexity ≥ 0.5 is ever selected.  Under
"thorough" it is exactly the confidence>0.5 candidates truncated to
maxRepos, an order-preserving sublist on which no record with confidence
≤ 0.5 appears.  Any other strategy returns the first maxRepos candidates
unmodified. -/
theorem select_repositories_policy (repositories : List ExecRepoRecord)
    (strategy : String) (maxRepos : Nat) :
    (selectRepositoriesForExecution repositories "quick" maxRepos
        = (repositories.filter (fun repo =>
            decide (repo.confidence_score.getD 0 > 0.7)
              && decide (repo.complexity_score.getD 1.0 < 0.5))).take (min maxRepos 2)
      ∧ (selectRepositoriesForExecution repositories "quick" maxRepos).Sublist repositories
      ∧ (selectRepositoriesForExecution repositories "quick" maxRepos).length ≤ min maxRepos 2
      ∧ ∀ repo ∈ selectRepositoriesForExecution repositories "quick" maxRepos,
          repo.confidence_score.getD 0 > 0.7 ∧ repo.complexity_score.getD 1.0 < 0.5
            ∧ ∀ c, repo.complexity_score = some c → ¬ (0.5 ≤ c))
    ∧ (selectRepositoriesForExecution repositories "thorough" maxRepos
        = (repositories.filter (fun repo =>
            decide (repo.confidence_score.getD 0 > 0.5))).take maxRepos
      ∧ (selectRepositoriesForExecution repositories "thorough" maxRepos).Sublist repositories
      ∧ (selectRepositoriesForExecution repositories "thorough" maxRepos).length ≤ maxRepos
      ∧ ∀ repo ∈ selectRepositoriesForExecution repositories "thorough" maxRepos,
          repo.confidence_score.getD 0 > 0.5
            ∧ ∀ q, repo.confidence_score = some q → ¬ (q ≤ 0.5))
    ∧ (strategy ≠ "quick" → strategy ≠ "thorough" →
        selectRepositoriesForExecution repositories strategy maxRepos
          = repositories.take maxRepos) := by
  have hq : selectRepositoriesForExecution repositories "quick" maxRepos
      = (repositories.filter (fun repo =>
          decide (repo.confidence_score.getD 0 > 0.7)
            && decide (repo.complexity_score.getD 1.0 < 0.5))).take (min maxRepos 2) := by
    simp [selectRepositoriesForExecution]
  have ht : selectRepositoriesForExecution repositories "thorough" maxRepos
      = (repositories.filter (fun repo =>
          decide (repo.confidence_score.getD 0 > 0.5))).take maxRepos := by
    simp [selectRepositoriesForExecution]
  refine ⟨⟨hq, ?_, ?_, ?_⟩, ⟨ht, ?_, ?_, ?_⟩, ?_⟩
  · rw [hq]; exact (List.take_sublist _ _).trans (List.filter_sublist _)
  · rw [hq, List.length_take]; exact min_le_left _ _
  · intro repo hrepo
    rw [hq] at hrepo
    have hmem := (List.take_sublist _ _).subset hrepo
    have hfil := (List.mem_filter.mp hmem).2
    simp only [Bool.and_eq_true, decide_eq_true_eq] at hfil
    refine ⟨hfil.1, hfil.2, ?_⟩
    intro c hc hle
    rw [hc] at hfil
    simp only [Option.getD_some] at hfil
    exact absurd hfil.2 (not_lt.mpr hle)
  · rw [ht]; exact (List.take_sublist _ _).trans (List.filter_sublist _)
  · rw [ht, List.length_take]; exact min_le_left _ _
  · intro repo hrepo
    rw [ht] at hrepo
    have hmem := (List.take_sublist _ _).subset hrepo
    have hfil := (List.mem_filter.mp hmem).2
    simp only [decide_eq_true_eq] at hfil
    refine ⟨hfil, ?_⟩
    intro q hqv hle
    rw [hqv] at hfil
    simp only [Option.getD_some] at hfil
    exact absurd hfil (not_lt.mpr hle)
  · intro h1 h2
    simp only [selectRepositoriesForExecution]
    rw [if_neg (by simpa using h1), if_neg (by simpa using h2)]

/-- Replace a missing confidence score by 0 and a missing complexity score
by 1.0, the defaults `_select_repositories_for_execution` reads. -/
def fillScoreDefaults (repo : ExecRepoRecord) : ExecRepoRecord :=
  { repo with
    confidence_score := some (repo.confidence_score.getD 0)
    complexity_score := some (repo.complexity_score.getD 1.0) }

/-- C10: selection treats a missing confidence_score as 0 and a missing
complexity_score as 1.0 — filling those defaults in commutes with
selection for every strategy — so "quick" never selects a record lacking
either field and "thorough" never selects one lacking confidence_score. -/
theorem select_repositories_missing_fields (repositories : List ExecRepoRecord)
    (maxRepos : Nat) :
    (∀ repo ∈ selectRepositoriesForExecution repositories "quick" maxRepos,
        repo.confidence_score.isSome ∧ repo.complexity_score.isSome)
    ∧ (∀ repo ∈ selectRepositoriesForExecution repositories "thorough" maxRepos,
        repo.confidence_score.isSome)
    ∧ (∀ strategy,
        selectRepositoriesForExecution (repositories.map fillScoreDefaults) strategy maxRepos
          = (selectRepositoriesForExecution repositories strategy maxRepos).map fillScoreDefaults) := by
  refine ⟨?_, ?_, ?_⟩
  · intro repo hrepo
    simp only [selectRepositoriesForExecution, if_pos] at hrepo
    rw [if_pos (by decide)] at hrepo
    have hmem := (List.take_sublist _ _).subset hrepo
    have hfil := (List.mem_filter.mp hmem).2
    simp only [Bool.and_eq_true, decide_eq_true_eq] at hfil
    constructor
    · cases hc : repo.confidence_score with
      | none =>
        rw [hc] at hfil
        simp only [Option.getD_none] at hfil
        exact absurd hfil.1 (by norm_num)
      | some q => rfl
    · cases hc : repo.complexity_score with
      | none =>
        rw [hc] at hfil
        simp only [Option.getD_none] at hfil
        exact absurd hfil.2 (by norm_num)
      | some q => rfl
  · intro repo hrepo
    simp only [selectRepositoriesForExecution] at hrepo
    rw [if_neg (by decide), if_pos (by decide)] at hrepo
    have hmem := (List.take_sublist _ _).subset hrepo
    have hfil := (List.mem_filter.mp hmem).2
    simp only [decide_eq_true_eq] at hfil
    cases hc : repo.confidence_score with
    | none =>
      rw [hc] at hfil
      simp only [Option.getD_none] at hfil
      exact absurd hfil (by norm_num)
    | some q => rfl
  · intro strategy
    simp only [selectRepositoriesForExecution]
    by_cases h1 : (strategy == "quick") = true
    · rw [if_pos h1, if_pos h1, List.filter_map, List.map_take]
      have hp : ((fun repo : ExecRepoRecord =>
            decide (repo.confidence_score.getD 0 > 0.7)
              && decide (repo.complexity_score.getD 1.0 < 0.5)) ∘ fillScoreDefaults)
          = (fun repo : ExecRepoRecord =>
            decide (repo.confidence_score.getD 0 > 0.7)
              && decide (repo.complexity_score.getD 1.0 < 0.5)) := by
        funext repo
        simp [Function.comp, fillScoreDefaults]
      rw [hp]
    · rw [if_neg h1, if_neg h1]
      by_cases h2 : (strategy == "thorough") = true
      · rw [if_pos h2, if_pos h2, List.filter_map, List.map_take]
        have hp : ((fun repo : ExecRepoRecord =>
              decide (repo.confidence_score.getD 0 > 0.5)) ∘ fillScoreDefaults)
            = (fun repo : ExecRepoRecord =>
              decide (repo.confidence_score.getD 0 > 0.5)) := by
          funext repo
          simp [Function.comp, fillScoreDefaults]
        rw [hp]
      · rw [if_neg h2, if_neg h2, List.map_take]

/-- A fully populated discovered-repository record with high confidence and
low complexity. -/
def wRepoHigh : ExecRepoRecord :=
  { name := some "tool", full_name := some "u/tool",
    html_url := some "https://github.com/u/tool", description := some "a cli tool",
    language := some "Python", stargazers_count := some 42, size := some 10,
    confidence_score := some 0.9, complexity_score := some 0.2,
    discovery_method := some "direct_validation", relevance_indicators := [] }

/-- A record whose confidence_score and complexity_score keys are missing. -/
def wRepoMissing : ExecRepoRecord :=
  { name := some "other", full_name := some "u/other",
    html_url := some "https://github.com/u/other", description := none,
    language := none, stargazers_count := none, size := none,
    confidence_score := none, complexity_score := none,
    discovery_method := none, relevance_indicators := [] }

/-- Witness for C4 at a concrete two-record list and the unknown strategy
"custom". -/
theorem select_repositories_policy_witness :
    selectRepositoriesForExecution [wRepoHigh, wRepoMissing] "custom" 3
        = [wRepoHigh, wRepoMissing]
      ∧ wRepoHigh.confidence_score.getD 0 > 0.7
      ∧ wRepoHigh.complexity_score.getD 1.0 < 0.5 := by
  have h := select_repositories_policy [wRepoHigh, wRepoMissing] "custom" 3
  have hmem : wRepoHigh ∈ selectRepositoriesForExecution [wRepoHigh, wRepoMissing] "quick" 3 := by
    norm_num [selectRepositoriesForExecution, wRepoHigh, wRepoMissing, List.filter]
  have hchar := h.1.2.2.2 wRepoHigh hmem
  exact ⟨h.2.2 (by decide) (by decide), hchar.1, hchar.2.1⟩

/-- Witness for C10 at concrete records: a record with both score fields is
selected under "quick", and filling defaults commutes with selection. -/
theorem select_repositories_missing_fields_witness :
    wRepoHigh.confidence_score.isSome ∧ wRepoHigh.complexity_score.isSome
      ∧ selectRepositoriesForExecution ([wRepoMissing].map fillScoreDefaults) "quick" 2
          = (selectRepositoriesForExecution [wRepoMissing] "quick" 2).map fillScoreDefaults := by
  have h := select_repositories_missing_fields [wRepoHigh, wRepoMissing] 3
  have hmem : wRepoHigh ∈ selectRepositoriesForExecution [wRepoHigh, wRepoMissing] "quick" 3 := by
    norm_num [selectRepositoriesForExecution, wRepoHigh, wRepoMissing, List.filter]
  obtain ⟨h1, h2⟩ := h.1 wRepoHigh hmem
  exact ⟨h1, h2, (select_repositories_missing_fields [wRepoMissing] 2).2.2 "quick"⟩

/-! ## GitHub discovery agent (`github_discovery_agent.py`)

GitHub API JSON fields that the agent calls `.lower()` on can hold JSON
`null` (e.g. `description`, `language`); `JStr` distinguishes a string
value from `null`, and `getStrLower` models `repo.get(key, "").lower()`,
which raises `AttributeError` on a present-but-null value.  Date fields
(`pushed_at`, `created_at`) are abstracted to the day counts the code
derives from them; `none` stands for an absent or unparseable date, for
which `_is_repository_active` / `_is_recent_repository` return False.
HTTP calls are oracle parameters (`ValidateOutcome`, `UserReposOutcome`).
-/

inductive JStr where
  | s (v : String)
  | null
deriving DecidableEq, Repr

def getStrLower : Option JStr → Except String String
  | none => .ok ""
  | some (.s v) => .ok (pyToLower v)
  | some .null => .error "AttributeError: NoneType object has no attribute lower"

def jstrTruthy : Option JStr → Bool
  | some (.s v) => v != ""
  | _ => false

def jstrVal : Option JStr → String
  | some (.s v) => v
  | _ => ""

structure RepoData where
  owner_login : String
  name : Option String
  full_name : Option String
  html_url : Option String
  description : Option JStr
  language : Option JStr
  pushed_days_ago : Option Nat
  created_days_ago : Option Nat
  stargazers_count : Option Nat
  size : Option Nat
  forks_count : Option Nat
  has_wiki : Bool
  has_issues : Bool
deriving DecidableEq, Repr

def isRepositoryActive (repo : RepoData) : Bool :=
  match repo.pushed_days_ago with
  | some d => d < 180
  | none => false

def isRecentRepository (repo : RepoData) : Bool :=
  match repo.created_days_ago with
  | some d => d < 30
  | none => false

def calculateComplexity (repo : RepoData) : Except String ℚ :=
  let score : ℚ := 0
  let score := score + min ((repo.size.getD 0 : ℚ) / 10000) 0.3
  let score := if jstrTruthy repo.language then score + 0.2 else score
  let score := score + min ((repo.forks_count.getD 0 : ℚ) / 100) 0.2
  if repo.has_wiki then .ok (min (score + 0.1) 1)
  else
    match getStrLower repo.description with
    | .error e => .error e
    | .ok d =>
      if strContains d "readme" then .ok (min (score + 0.1) 1) else .ok (min score 1)

def extractRelevanceIndicators (repo : RepoData) : List String :=
  (if isRepositoryActive repo then ["recently_active"] else [])
    ++ (if repo.stargazers_count.getD 0 > 100 then ["popular"] else [])
    ++ (if jstrTruthy repo.language then ["language_" ++ pyToLower (jstrVal repo.language)] else [])
    ++ (if repo.has_issues then ["has_issues"] else [])
    ++ (if jstrTruthy repo.description then ["documented"] else [])

/-- `GitHubDiscoveryAgent._calculate_repository_relevance` (lines
287-319).  The obtained content-analysis keywords feed substring tests;
the error branch is the `AttributeError` raised by `.lower()` on a null
field, which callers catch. -/
def calculateRepositoryRelevance (repo : RepoData) (codeKeywords : List String) :
    Except String ℚ :=
  let repoName := pyToLower (repo.name.getD "")
  let score : ℚ := if codeKeywords.any (fun k => strContains repoName k) then 0.3 else 0
  match getStrLower repo.description with
  | .error e => .error e
  | .ok description =>
    let score := if description != "" then
        score + min (((codeKeywords.filter (fun k => strContains description k)).length : ℚ) * 0.1) 0.4
      else score
    match getStrLower repo.language with
    | .error e => .error e
    | .ok repoLanguage =>
      let score := if codeKeywords.contains repoLanguage then score + 0.2 else score
      let score := if isRepositoryActive repo then score + 0.1 else score
      let stars := repo.stargazers_count.getD 0
      let score := if stars > 10 then score + min ((stars : ℚ) / 1000) 0.2 else score
      .ok (min score 1)

/-- The candidate-relevance formula exactly as the specification words it
(claim C8): the star bonus is unconditional.  To be compared with
`calculateRepositoryRelevance`. -/
def repoRelevanceClaimScore (repo : RepoData) (codeKeywords : List String) : ℚ :=
  (if codeKeywords.any (fun k => strContains (pyToLower (repo.name.getD "")) k) then 0.3 else 0)
    + min (((codeKeywords.filter (fun k =>
        strContains (pyToLower (jstrVal repo.description)) k)).length : ℚ) * 0.1) 0.4
    + (if codeKeywords.contains (pyToLower (jstrVal repo.language)) then 0.2 else 0)
    + (if isRepositoryActive repo then 0.1 else 0)
    + min ((repo.stargazers_count.getD 0 : ℚ) / 1000) 0.2

/-- The candidate-relevance formula as the code computes it: the star
bonus only applies when stars > 10, and the description term only when the
description is a nonempty string. -/
def repoRelevanceAmendedScore (repo : RepoData) (codeKeywords : List String) : ℚ :=
  (if codeKeywords.any (fun k => strContains (pyToLower (repo.name.getD "")) k) then 0.3 else 0)
    + (if pyToLower (jstrVal repo.description) != "" then
        min (((codeKeywords.filter (fun k =>
          strContains (pyToLower (jstrVal repo.description)) k)).length : ℚ) * 0.1) 0.4
      else 0)
    + (if codeKeywords.contains (pyToLower (jstrVal repo.language)) then 0.2 else 0)
    + (if isRepositoryActive repo then 0.1 else 0)
    + (if repo.stargazers_count.getD 0 > 10 then
        min ((repo.stargazers_count.getD 0 : ℚ) / 1000) 0.2 else 0)

/-- A repository record with 5 stars and no other relevance signal. -/
def cexStarsRepo : RepoData :=
  { owner_login := "u", name := some "app", full_name := some "u/app",
    html_url := some "https://github.com/u/app", description := none,
    language := none, pushed_days_ago := none, created_days_ago := none,
    stargazers_count := some 5, size := some 0, forks_count := some 0,
    has_wiki := false, has_issues := false }

/-- C8 counterexample: on a record with 5 stars and no other signal the
code scores 0, while the claim's formula (unconditional star bonus
min(stars/1000, 0.2)) gives 1/200, so the claimed equality fails. -/
theorem repo_relevance_claim_counterexample :
    calculateRepositoryRelevance cexStarsRepo [] = .ok 0
      ∧ min (repoRelevanceClaimScore cexStarsRepo []) 1 = 1/200
      ∧ ¬ (calculateRepositoryRelevance cexStarsRepo []
            = .ok (min (repoRelevanceClaimScore cexStarsRepo []) 1)) := by
  have h1 : calculateRepositoryRelevance cexStarsRepo [] = .ok 0 := by
    norm_num [calculateRepositoryRelevance, cexStarsRepo, getStrLower, isRepositoryActive]
  have h2 : min (repoRelevanceClaimScore cexStarsRepo []) 1 = 1/200 := by
    norm_num [repoRelevanceClaimScore, cexStarsRepo, isRepositoryActive, jstrVal]
  refine ⟨h1, h2, ?_⟩
  rw [h1, h2]
  intro h
  have := Except.ok.inj h
  norm_num at this

/-- C8 amended: whenever the record's description and language fields are
not JSON null (so `.lower()` does not raise), the computed relevance is
exactly the amended formula — name hit +0.3, description keyword hits
(guarded on a nonempty description) up to +0.4, language match +0.2,
pushed within 180 days +0.1, and min(stars/1000, 0.2) only when
stars > 10 — clamped to at most 1. -/
theorem repo_relevance_amended (repo : RepoData) (codeKeywords : List String)
    (hd : repo.description ≠ some JStr.null) (hl : repo.language ≠ some JStr.null) :
    calculateRepositoryRelevance repo codeKeywords
      = .ok (min (repoRelevanceAmendedScore repo codeKeywords) 1) := by
  have hdesc : getStrLower repo.description = .ok (pyToLower (jstrVal repo.description)) := by
    cases h : repo.description with
    | none => simp [getStrLower, jstrVal, pyToLower]
    | some j =>
      cases j with
      | s v => simp [getStrLower, jstrVal]
      | null => exact absurd h hd
  have hlang : getStrLower repo.language = .ok (pyToLower (jstrVal repo.language)) := by
    cases h : repo.language with
    | none => simp [getStrLower, jstrVal, pyToLower]
    | some j =>
      cases j with
      | s v => simp [getStrLower, jstrVal]
      | null => exact absurd h hl
  unfold calculateRepositoryRelevance repoRelevanceAmendedScore
  rw [hdesc, hlang]
  simp only []
  split_ifs <;> ring_nf

/-- A well-formed candidate record matching the keyword "python". -/
def wDiscRepo : RepoData :=
  { owner_login := "alice", name := some "pytool", full_name := some "alice/pytool",
    html_url := some "https://github.com/alice/pytool",
    description := some (.s "A python helper"), language := some (.s "Python"),
    pushed_days_ago := some 10, created_days_ago := some 400,
    stargazers_count := some 0, size := some 0, forks_count := some 0,
    has_wiki := false, has_issues := false }

/-- Witness for the amended C8 theorem at a concrete record. -/
theorem repo_relevance_amended_witness :
    wDiscRepo.description ≠ some JStr.null
      ∧ calculateRepositoryRelevance wDiscRepo ["python"]
          = .ok (min (repoRelevanceAmendedScore wDiscRepo ["python"]) 1) :=
  ⟨by decide, repo_relevance_amended wDiscRepo ["python"] (by decide) (by decide)⟩

/-- `BaseAgent.create_result`: the standardized result dictionary every
agent returns.  The `data` key is present only when a truthy payload was
supplied (all success payloads in the source are nonempty dicts); the
wall-clock `timestamp` and constant `agent` fields are not modelled. -/
structure AgentResult (α : Type) where
  success : Bool
  data : Option α
  error : Option String

/-! ## Discovery pipeline (`GitHubDiscoveryAgent.process` and helpers) -/

structure EnrichedRepo where
  repo : RepoData
  confidence_score : ℚ
  discovery_method : String
  is_active : Bool
  complexity_score : ℚ
  relevance_indicators : List String
  rank : Option Nat
  ranking_score : Option ℚ
deriving DecidableEq, Repr

inductive ValidateOutcome where
  | raises (msg : String)
  | http (status : Nat) (data : RepoData)

inductive UserReposOutcome where
  | raises (msg : String)
  | http (status : Nat) (repos : List RepoData)

/-- `_validate_repository` (lines 138-163): a 200 response is enriched; a
non-200 response, a transport error, or an exception while enriching (the
complexity computation can raise on a null description) yields None. -/
def validateRepository (outcome : ValidateOutcome) : Option EnrichedRepo :=
  match outcome with
  | .raises _ => none
  | .http status data =>
    if status == 200 then
      match calculateComplexity data with
      | .error _ => none
      | .ok c =>
        some { repo := data, confidence_score := 0.9,
               discovery_method := "direct_validation",
               is_active := isRepositoryActive data, complexity_score := c,
               relevance_indicators := extractRelevanceIndicators data,
               rank := none, ranking_score := none }
    else none

def parseAfterGithub (rest : List Char) : Option (String × String) :=
  let owner := rest.takeWhile (fun c => c != '/')
  let rest2 := rest.drop owner.length
  match owner, rest2 with
  | [], _ => none
  | _ :: _, '/' :: r3 =>
    let repoCs := r3.takeWhile (fun c => !(c == '/' || c.isWhitespace || c == '?' || c == '#'))
    if repoCs.isEmpty then none
    else some (String.mk owner, String.mk repoCs)
  | _ :: _, _ => none

/-- The regex search in `_validate_github_url`
(`github\.com/([^/]+)/([^/\s?#]+)`): try every starting position, take the
first position where the literal and both groups match. -/
def scanGithubUrl : List Char → Option (String × String)
  | [] => none
  | c :: cs =>
    if charsHasPre ("github.com/".data) (c :: cs) then
      match parseAfterGithub ((c :: cs).drop 11) with
      | some p => some p
      | none => scanGithubUrl cs
    else scanGithubUrl cs

def validateGithubUrl (validate : String → String → ValidateOutcome) (url : String) :
    Option EnrichedRepo :=
  match scanGithubUrl url.data with
  | none => none
  | some (owner, repo) =>
    validateRepository (validate owner (pyRstripSet repo ['.', 'g', 'i', 't']))

def enrichUserRepo (repo : RepoData) (relevance complexity : ℚ) : EnrichedRepo :=
  { repo := repo, confidence_score := relevance,
    discovery_method := "user_repository_search",
    is_active := isRepositoryActive repo, complexity_score := complexity,
    relevance_indicators := extractRelevanceIndicators repo,
    rank := none, ranking_score := none }

/-- The scoring loop inside `_discover_user_repositories` (lines 186-200);
an exception raised while scoring or enriching ANY candidate propagates
(`.error`), which the enclosing handler turns into an empty list. -/
def scoreUserRepos : List RepoData → List String → Except String (List EnrichedRepo)
  | [], _ => .ok []
  | repo :: rest, codeKeywords =>
    match calculateRepositoryRelevance repo codeKeywords with
    | .error e => .error e
    | .ok relevance =>
      if relevance > 0.3 then
        match calculateComplexity repo with
        | .error e => .error e
        | .ok complexity =>
          match scoreUserRepos rest codeKeywords with
          | .error e => .error e
          | .ok tail => .ok (enrichUserRepo repo relevance complexity :: tail)
      else
        scoreUserRepos rest codeKeywords

def sortByConfidenceDesc (l : List EnrichedRepo) : List EnrichedRepo :=
  List.insertionSort (fun a b => b.confidence_score ≤ a.confidence_score) l

def discoverUserRepositories (outcome : UserReposOutcome) (codeKeywords : List String) :
    List EnrichedRepo :=
  match outcome with
  | .raises _ => []
  | .http status repos =>
    if status == 200 then
      match scoreUserRepos repos codeKeywords with
      | .error _ => []
      | .ok relevant => (sortByConfidenceDesc relevant).take 5
    else []

def myProjectIndicators : List String :=
  ["built", "created", "made", "my", "new", "latest", "just", "working on"]

def discoverAuthorRepositories (outcome : UserReposOutcome) (codeKeywords : List String)
    (tweetText : String) : List EnrichedRepo :=
  let recent := discoverUserRepositories outcome codeKeywords
  let hasPersonal := myProjectIndicators.any (fun w => strContains (pyToLower tweetText) w)
  if hasPersonal then
    recent.map (fun e =>
      if isRecentRepository e.repo then
        { e with confidence_score := min (e.confidence_score + 0.3) 1,
                 discovery_method := "author_personal_project" }
      else e)
  else recent

def rankingScore (e : EnrichedRepo) : ℚ :=
  e.confidence_score + min ((e.repo.stargazers_count.getD 0 : ℚ) / 1000) 0.2
    + (if e.is_active then 0.1 else 0)

def rankRepositories (repositories : List EnrichedRepo) : List EnrichedRepo :=
  let sorted := List.insertionSort (fun a b => rankingScore b ≤ rankingScore a) repositories
  sorted.enum.map (fun p =>
    { p.2 with rank := some (p.1 + 1), ranking_score := some (rankingScore p.2) })

/-- The `content_analysis` dictionary fields read downstream of the
content-analysis agent. -/
structure ContentAnalysisData where
  tweet_text : String
  direct_github_urls : List String
  github_mentions : List Mention
  content_type : Option String
  code_keywords : List String
  author_github_candidate : String
  github_relevance_score : ℚ
  requires_github_discovery : Bool
  processing_priority : Option String
deriving Repr

structure DiscoveryData where
  discovered_repositories : List EnrichedRepo
  total_found : Option Nat
  discovery_strategy : Option String
  direct_urls_processed : Option Nat
  mentions_processed : Option Nat
  has_high_confidence_repos : Option Bool

/-- External-world answers for one discovery run: repository validation
responses, user-repository listings, and the LLM's repo suggestions
(empty when no LLM is configured or its reply fails to parse). -/
structure DiscoveryEnv where
  validate : String → String → ValidateOutcome
  userRepos : String → UserReposOutcome
  llmSuggestions : List (String × String)

def mentionContribution (env : DiscoveryEnv) (codeKeywords : List String) :
    Mention → List EnrichedRepo
  | .repository owner repo _ => (validateRepository (env.validate owner repo)).toList
  | .user username => discoverUserRepositories (env.userRepos username) codeKeywords

/-- The repository-collection phase of `GitHubDiscoveryAgent.process`
(lines 49-95): direct URLs, then mentions, then the author candidate, then
LLM fallback under the aggressive strategy. -/
def collectDiscoveredRepos (env : DiscoveryEnv) (ca : ContentAnalysisData)
    (strategy : String) : List EnrichedRepo :=
  let fromUrls := ca.direct_github_urls.flatMap
    (fun url => (validateGithubUrl env.validate url).toList)
  let fromMentions := ca.github_mentions.flatMap (mentionContribution env ca.code_keywords)
  let repos := fromUrls ++ fromMentions
  let repos :=
    if ca.author_github_candidate != ""
        && !(repos.any (fun e => e.repo.owner_login == ca.author_github_candidate)) then
      repos ++ discoverAuthorRepositories (env.userRepos ca.author_github_candidate)
        ca.code_keywords ca.tweet_text
    else repos
  if repos.isEmpty && (strategy == "aggressive") then
    repos ++ env.llmSuggestions.flatMap
      (fun p => (validateRepository (env.validate p.1 p.2)).toList)
  else repos

def githubDiscoveryProcess (env : DiscoveryEnv) (ca : ContentAnalysisData)
    (strategy : String) : AgentResult DiscoveryData :=
  let ranked := rankRepositories (collectDiscoveredRepos env ca strategy)
  { success := true,
    data := some
      { discovered_repositories := ranked,
        total_found := some ranked.length,
        discovery_strategy := some strategy,
        direct_urls_processed := some ca.direct_github_urls.length,
        mentions_processed := some ca.github_mentions.length,
        has_high_confidence_repos := some (ranked.any (fun r => decide (r.confidence_score > 0.8))) },
    error := none }

/-- A candidate record whose description field holds JSON null: scoring it
raises `AttributeError` inside the user-repository loop. -/
def cexNullDescRepo : RepoData :=
  { owner_login := "alice", name := some "badrepo", full_name := some "alice/badrepo",
    html_url := some "https://github.com/alice/badrepo", description := some JStr.null,
    language := some (.s "Python"), pushed_days_ago := some 10, created_days_ago := none,
    stargazers_count := some 50, size := some 0, forks_count := some 0,
    has_wiki := false, has_issues := false }

/-- C7 counterexample: scoring failure of a single candidate inside a
user's repository list drops the WHOLE list, not just the failing item.
With candidates [cexNullDescRepo, wDiscRepo] the result is empty although
wDiscRepo alone validates, scores 0.4 and is returned.  This refutes "the
remaining candidates are still validated, scored, and returned" for the
scoring loop. -/
theorem discovery_scoring_failure_counterexample :
    discoverUserRepositories (.http 200 [cexNullDescRepo, wDiscRepo]) ["python"] = []
      ∧ discoverUserRepositories (.http 200 [wDiscRepo]) ["python"]
          = [enrichUserRepo wDiscRepo (4/10) (2/10)] := by
  constructor
  · have hbad : calculateRepositoryRelevance cexNullDescRepo ["python"]
        = .error "AttributeError: NoneType object has no attribute lower" := by
      simp +decide [calculateRepositoryRelevance, cexNullDescRepo, getStrLower]
    simp [discoverUserRepositories, scoreUserRepos, hbad]
  · have hrel : calculateRepositoryRelevance wDiscRepo ["python"] = .ok (4/10) := by
      simp +decide only [calculateRepositoryRelevance, wDiscRepo, getStrLower,
        isRepositoryActive]
      rw [show List.filter (fun k => strContains (pyToLower "A python helper") k) ["python"]
          = ["python"] from by decide]
      norm_num
    have hcompl : calculateComplexity wDiscRepo = .ok (2/10) := by
      simp +decide only [calculateComplexity, wDiscRepo, getStrLower, jstrTruthy]
      norm_num
    have hscore : scoreUserRepos [wDiscRepo] ["python"]
        = .ok [enrichUserRepo wDiscRepo (4/10) (2/10)] := by
      simp only [scoreUserRepos, hrel, hcompl]
      norm_num
    simp only [discoverUserRepositories, hscore]
    norm_num [sortByConfidenceDesc, List.insertionSort]

/-- C7 amended: discovery always returns success=true with a (possibly
empty) repository list; the per-mention contributions are independent, so
one failing item only removes its own contribution; a repository-mention
lookup that raises or answers non-200 contributes nothing; a user lookup
that raises contributes nothing; and a scoring failure inside a user's
candidate list drops that user's whole contribution (only) — discovery
itself still succeeds. -/
theorem discovery_item_failure_policy (env : DiscoveryEnv) (ca : ContentAnalysisData)
    (strategy : String) :
    (githubDiscoveryProcess env ca strategy).success = true
    ∧ (∃ dd, (githubDiscoveryProcess env ca strategy).data = some dd
        ∧ dd.discovered_repositories
            = rankRepositories (collectDiscoveredRepos env ca strategy))
    ∧ (∀ pre m post, ca.github_mentions = pre ++ m :: post →
        ca.github_mentions.flatMap (mentionContribution env ca.code_keywords)
          = pre.flatMap (mentionContribution env ca.code_keywords)
              ++ mentionContribution env ca.code_keywords m
              ++ post.flatMap (mentionContribution env ca.code_keywords))
    ∧ (∀ owner repo fullName msg, env.validate owner repo = .raises msg →
        mentionContribution env ca.code_keywords (.repository owner repo fullName) = [])
    ∧ (∀ owner repo fullName status d, env.validate owner repo = .http status d →
        status ≠ 200 →
        mentionContribution env ca.code_keywords (.repository owner repo fullName) = [])
    ∧ (∀ username msg, env.userRepos username = .raises msg →
        mentionContribution env ca.code_keywords (.user username) = [])
    ∧ (∀ username repos msg, env.userRepos username = .http 200 repos →
        scoreUserRepos repos ca.code_keywords = .error msg →
        mentionContribution env ca.code_keywords (.user username) = []) := by
  refine ⟨rfl, ⟨_, rfl, rfl⟩, ?_, ?_, ?_, ?_, ?_⟩
  · intro pre m post h
    rw [h, List.flatMap_append, List.flatMap_cons, List.append_assoc]
  · intro owner repo fullName msg h
    simp [mentionContribution, validateRepository, h]
  · intro owner repo fullName status d h hstatus
    simp only [mentionContribution, validateRepository, h]
    rw [if_neg (by simpa using hstatus)]
    rfl
  · intro username msg h
    simp [mentionContribution, discoverUserRepositories, h]
  · intro username repos msg h hscore
    simp [mentionContribution, discoverUserRepositories, h, hscore]

/-- An environment in which every outbound lookup fails. -/
def wFailingDiscoveryEnv : DiscoveryEnv :=
  { validate := fun _ _ => .raises "HTTP timeout",
    userRepos := fun _ => .raises "HTTP timeout",
    llmSuggestions := [] }

/-- A content analysis carrying one repository mention and one user
mention. -/
def wDiscoveryCA : ContentAnalysisData :=
  { tweet_text := "Check out alice/pytool by @alice",
    direct_github_urls := [],
    github_mentions := [.repository "alice" "pytool" "alice/pytool", .user "alice"],
    content_type := some "showcase", code_keywords := ["python"],
    author_github_candidate := "", github_relevance_score := 0.75,
    requires_github_discovery := true, processing_priority := some "high" }

/-- Witness for the amended C7 theorem: with every lookup failing, both
mention items contribute nothing, yet the discovery result is
success=true. -/
theorem discovery_item_failure_policy_witness :
    (githubDiscoveryProcess wFailingDiscoveryEnv wDiscoveryCA "conservative").success = true
      ∧ mentionContribution wFailingDiscoveryEnv ["python"]
          (.repository "alice" "pytool" "alice/pytool") = []
      ∧ mentionContribution wFailingDiscoveryEnv ["python"] (.user "alice") = [] := by
  have h := discovery_item_failure_policy wFailingDiscoveryEnv wDiscoveryCA "conservative"
  exact ⟨h.1, h.2.2.2.1 "alice" "pytool" "alice/pytool" "HTTP timeout" rfl,
    h.2.2.2.2.2.1 "alice" "HTTP timeout" rfl⟩

/-! ## Code execution agent: the batch run (`code_execution_agent.py`)

The E2B call (`E2BTools.analyze_and_run_project`) is an oracle keyed by
repository URL; `E2BRunResult` is the dictionary it returns (success or
failure — its own body is fully wrapped in try/except).  The LLM used by
`_determine_functionality` is the oracle `llmFunc`; `none` covers "no LLM
key", an LLM error, or an unparseable reply, all of which fall back to
`_basic_functionality_analysis`.  Python `KeyError` messages are rendered
as "KeyError: key". -/

structure ProjectAnalysis where
  project_type : Option String
  dependencies : List String
deriving DecidableEq, Repr

structure E2BRunResult where
  success : Bool
  error : Option String
  repo_url : Option String
  analysis : Option ProjectAnalysis
  install_output : Option String
  run_output : Option String
deriving DecidableEq, Repr

inductive E2BOutcome where
  | raises (msg : String)
  | returns (r : E2BRunResult)

structure ExecInsights where
  project_type : String
  has_dependencies : Bool
  dependency_count : Nat
  installation_successful : Bool
  execution_successful : Bool
  has_output : Bool
  complexity_indicators : List String
  technology_stack : List String
deriving DecidableEq, Repr

structure Functionality where
  primary_function : String
  category : String
  use_cases : List String
  notable_features : List String
  complexity_level : String
deriving DecidableEq, Repr

structure ExecRepositoryMetadata where
  name : Option String
  full_name : Option String
  description : Option String
  language : Option String
  stars : Option Nat
  confidence_score : Option ℚ
  discovery_method : Option String
  relevance_indicators : Option (List String)
deriving DecidableEq, Repr

structure ExecEntry where
  success : Bool
  error : Option String
  repo_url : Option String
  execution_skipped : Bool
  repository_metadata : Option ExecRepositoryMetadata
  analysis : Option ProjectAnalysis
  install_output : Option String
  run_output : Option String
  insights : Option ExecInsights
  functionality : Option Functionality
  learnings : Option (List String)
  execution_summary : Option String
deriving DecidableEq, Repr

def extractInsights (repo : ExecRepoRecord) (analysis : ProjectAnalysis)
    (installOutput runOutput : String) : ExecInsights :=
  let depCount := analysis.dependencies.length
  { project_type := analysis.project_type.getD "unknown",
    has_dependencies := !analysis.dependencies.isEmpty,
    dependency_count := depCount,
    installation_successful :=
      strContains (pyToLower installOutput) "successfully"
        || strContains installOutput "exit code: 0",
    execution_successful :=
      strContains runOutput "exit code: 0" || (pyStrip runOutput).length > 0,
    has_output := pyStrip runOutput != "",
    complexity_indicators :=
      (if depCount > 10 then ["many_dependencies"] else [])
        ++ (if repo.size.getD 0 > 5000 then ["large_codebase"] else []),
    technology_stack :=
      (match analysis.project_type with
        | some pt => if pt != "" then [pt] else []
        | none => [])
        ++ analysis.dependencies.take 5 }

def basicFunctionalityAnalysis (repo : ExecRepoRecord) (analysis : ProjectAnalysis) :
    Functionality :=
  let description := pyToLower (repo.description.getD "")
  let projectType := analysis.project_type.getD "unknown"
  let category :=
    if ["api", "server", "web"].any (fun w => strContains description w) then "web_app"
    else if ["cli", "command", "tool"].any (fun w => strContains description w) then "cli_tool"
    else if ["library", "package", "module"].any (fun w => strContains description w) then "library"
    else if projectType == "python" && strContains description "script" then "script"
    else "application"
  { primary_function := repo.description.getD "Code execution and analysis",
    category := category,
    use_cases := ["Learning " ++ projectType ++ " development", "Code reference"],
    notable_features := ["Written in " ++ projectType],
    complexity_level := "intermediate" }

def extractLearnings (analysis : Option ProjectAnalysis)
    (installOutput runOutput : Option String) (repo : ExecRepoRecord) : List String :=
  (match analysis.bind (fun a => a.project_type) with
    | some pt => if pt != "" && pt != "unknown" then ["Project uses " ++ pt] else []
    | none => [])
    ++ (let deps := (analysis.map (fun a => a.dependencies)).getD []
        if !deps.isEmpty then
          ["Uses " ++ toString deps.length ++ " dependencies including " ++ deps.headD "none"]
        else [])
    ++ (if (installOutput.getD "") != "" then ["Has automated dependency installation"] else [])
    ++ (if (runOutput.getD "") != "" then ["Code executes successfully"] else [])
    ++ (if repo.stargazers_count.getD 0 > 100 then
        ["Popular project with " ++ toString (repo.stargazers_count.getD 0) ++ " stars"]
      else [])

def createExecutionSummary (repoName : String) (analysis : ProjectAnalysis)
    (insights : ExecInsights) (functionality : Functionality) : String :=
  let projectType := analysis.project_type.getD "unknown"
  let summary := repoName ++ " is a " ++ projectType ++ " " ++ functionality.category
    ++ ". " ++ functionality.primary_function
  let summary :=
    if insights.execution_successful then
      summary ++ " The code executed successfully"
        ++ (if insights.has_output then " and produced output" else "") ++ "."
    else summary ++ " There were issues during execution."
  if insights.dependency_count > 0 then
    summary ++ " It has " ++ toString insights.dependency_count ++ " dependencies."
  else summary

/-- An `ExecEntry` that carries exactly the keys of the given E2B result
dictionary. -/
def plainEntryOf (er : E2BRunResult) : ExecEntry :=
  { success := er.success, error := er.error, repo_url := er.repo_url,
    execution_skipped := false, repository_metadata := none,
    analysis := er.analysis, install_output := er.install_output,
    run_output := er.run_output, insights := none, functionality := none,
    learnings := none, execution_summary := none }

/-- `_enhance_execution_result` (lines 172-222).  If the record has no
`name`, `_create_execution_summary` raises `KeyError` after the insights
are computed; the enclosing handler then returns the unenhanced result. -/
def enhanceExecutionResult (llmFunc : ExecRepoRecord → Option Functionality)
    (er : E2BRunResult) (repo : ExecRepoRecord) : ExecEntry :=
  match repo.name with
  | none => plainEntryOf er
  | some nm =>
    let analysis := er.analysis.getD { project_type := none, dependencies := [] }
    let installOutput := er.install_output.getD ""
    let runOutput := er.run_output.getD ""
    let insights := extractInsights repo analysis installOutput runOutput
    let functionality := (llmFunc repo).getD (basicFunctionalityAnalysis repo analysis)
    let learnings := extractLearnings er.analysis er.install_output er.run_output repo
    { plainEntryOf er with
      insights := some insights, functionality := some functionality,
      learnings := some learnings,
      execution_summary := some (createExecutionSummary nm analysis insights functionality) }

def failedExecEntry (msg : String) (repoUrl : Option String) : ExecEntry :=
  { success := false, error := some msg, repo_url := repoUrl,
    execution_skipped := false, repository_metadata := none, analysis := none,
    install_output := none, run_output := none, insights := none,
    functionality := none, learnings := none, execution_summary := none }

/-- `_execute_repository` (lines 145-170): its try/except catches both the
`KeyError` on a missing `html_url` and anything raised by the E2B call,
returning a failed dictionary; an E2B failure dictionary is passed through
unchanged; a success is enhanced. -/
def executeRepository (e2b : String → E2BOutcome)
    (llmFunc : ExecRepoRecord → Option Functionality) (repo : ExecRepoRecord) : ExecEntry :=
  match repo.html_url with
  | none => failedExecEntry "KeyError: html_url" none
  | some url =>
    match e2b url with
    | .raises msg => failedExecEntry msg (some url)
    | .returns er =>
      if er.success then enhanceExecutionResult llmFunc er repo
      else plainEntryOf er

/-- One iteration of the batch loop in `CodeExecutionAgent.process` (lines
57-91).  A missing `full_name` raises in the `log_step` f-string before
the per-repository try block; a missing `name` raises inside the block AND
again inside the except handler (which reads `repo["name"]` to build the
`execution_skipped` entry), so both abort the whole batch.  Consequently
no reachable path produces an entry with `execution_skipped = true`. -/
def processOneRepo (e2b : String → E2BOutcome)
    (llmFunc : ExecRepoRecord → Option Functionality) (repo : ExecRepoRecord) :
    Except String ExecEntry :=
  match repo.full_name with
  | none => .error "KeyError: full_name"
  | some _ =>
    let er := executeRepository e2b llmFunc repo
    match repo.name with
    | none => .error "KeyError: name"
    | some nm =>
      .ok { er with repository_metadata := some (ExecRepositoryMetadata.mk
        (some nm) repo.full_name repo.description repo.language
        (some (repo.stargazers_count.getD 0))
        (some (repo.confidence_score.getD 0))
        repo.discovery_method (some repo.relevance_indicators)) }

structure ExecAnalysisOut where
  message : Option String
  total_repositories : Option Nat
  successful_executions : Option Nat
  success_rate : Option ℚ
  project_types_found : List String
  categories_found : List String
  technologies_used : List String
  has_runnable_code : Bool
  complexity_distribution : List (String × Nat)
deriving DecidableEq, Repr

def analyzeExecutionResults (executionResults : List ExecEntry) : ExecAnalysisOut :=
  if executionResults.isEmpty then
    { message := some "No execution results to analyze",
      total_repositories := none, successful_executions := none,
      success_rate := none, project_types_found := [], categories_found := [],
      technologies_used := [], has_runnable_code := false,
      complexity_distribution := [] }
  else
    let successful := executionResults.filter (fun r => r.success)
    { message := none,
      total_repositories := some executionResults.length,
      successful_executions := some successful.length,
      success_rate := some ((successful.length : ℚ) / executionResults.length),
      project_types_found :=
        pyUnique (((successful.filterMap (fun r => r.insights)).map
          (fun i => i.project_type)).filter (fun s => s != "")),
      categories_found :=
        pyUnique (((successful.filterMap (fun r => r.functionality)).map
          (fun f => f.category)).filter (fun s => s != "")),
      technologies_used :=
        pyUnique ((successful.map (fun r =>
          (r.insights.map (fun i => i.technology_stack)).getD [])).flatten),
      has_runnable_code :=
        successful.any (fun r => (r.insights.map (fun i => i.execution_successful)).getD false),
      complexity_distribution :=
        tally (successful.map (fun r =>
          (r.functionality.map (fun f => f.complexity_level)).getD "unknown")) }

structure CodeExecutionData where
  execution_results : List ExecEntry
  analysis : Option ExecAnalysisOut
  total_executed : Option Nat
  successful_executions : Option Nat
  execution_strategy : Option String
  has_runnable_code : Option Bool
  message : Option String

structure CodeExecutionEnv where
  e2b : String → E2BOutcome
  llmFunc : ExecRepoRecord → Option Functionality

/-- The batch loop of `CodeExecutionAgent.process`: entries accumulate in
order; an uncaught exception (missing name/full_name key) aborts the whole
batch and surfaces through the agent's top-level except. -/
def processLoop (e2b : String → E2BOutcome)
    (llmFunc : ExecRepoRecord → Option Functionality) :
    List ExecRepoRecord → Except String (List ExecEntry)
  | [] => .ok []
  | repo :: rest =>
    match processOneRepo e2b llmFunc repo with
    | .error e => .error e
    | .ok entry =>
      match processLoop e2b llmFunc rest with
      | .error e => .error e
      | .ok entries => .ok (entry :: entries)

/-- `CodeExecutionAgent.process` (lines 19-115). -/
def codeExecutionProcess (env : CodeExecutionEnv)
    (discoveredRepositories : List ExecRepoRecord) (strategy : String)
    (maxRepos : Nat) : AgentResult CodeExecutionData :=
  if discoveredRepositories.isEmpty then
    { success := true,
      data := some
        { execution_results := [], analysis := none,
          total_executed := none, successful_executions := none,
          execution_strategy := none, has_runnable_code := none,
          message := some "No repositories to execute" },
      error := none }
  else
    let reposToExecute := selectRepositoriesForExecution discoveredRepositories strategy maxRepos
    match processLoop env.e2b env.llmFunc reposToExecute with
    | .error e => { success := false, data := none, error := some e }
    | .ok executionResults =>
      { success := true,
        data := some
          { execution_results := executionResults,
            total_executed := some reposToExecute.length,
            successful_executions := some (executionResults.filter (fun r => r.success)).length,
            execution_strategy := some strategy,
            analysis := some (analyzeExecutionResults executionResults),
            has_runnable_code := some (executionResults.any (fun r =>
              r.success && decide (r.analysis.bind (fun a => a.project_type) ≠ some "unknown"))),
            message := none },
        error := none }

theorem select_sublist (repositories : List ExecRepoRecord) (strategy : String)
    (maxRepos : Nat) :
    (selectRepositoriesForExecution repositories strategy maxRepos).Sublist repositories := by
  unfold selectRepositoriesForExecution
  split_ifs
  · exact (List.take_sublist _ _).trans (List.filter_sublist _)
  · exact (List.take_sublist _ _).trans (List.filter_sublist _)
  · exact List.take_sublist _ _

/-- The entry the batch loop records for one repository whose `name` and
`full_name` keys are present. -/
def entryForRepo (env : CodeExecutionEnv) (repo : ExecRepoRecord) : ExecEntry :=
  { executeRepository env.e2b env.llmFunc repo with
    repository_metadata := some (ExecRepositoryMetadata.mk
      repo.name repo.full_name repo.description repo.language
      (some (repo.stargazers_count.getD 0)) (some (repo.confidence_score.getD 0))
      repo.discovery_method (some repo.relevance_indicators)) }

theorem processOneRepo_ok (env : CodeExecutionEnv) (repo : ExecRepoRecord)
    (hn : repo.name.isSome) (hf : repo.full_name.isSome) :
    processOneRepo env.e2b env.llmFunc repo = .ok (entryForRepo env repo) := by
  obtain ⟨nm, hnm⟩ := Option.isSome_iff_exists.mp hn
  obtain ⟨fn, hfn⟩ := Option.isSome_iff_exists.mp hf
  simp [processOneRepo, entryForRepo, hnm, hfn]

theorem processLoop_ok (env : CodeExecutionEnv) (repos : List ExecRepoRecord)
    (h : ∀ r ∈ repos, r.name.isSome ∧ r.full_name.isSome) :
    processLoop env.e2b env.llmFunc repos = .ok (repos.map (entryForRepo env)) := by
  induction repos with
  | nil => rfl
  | cons repo rest ih =>
    have hr := h repo (List.mem_cons_self _ _)
    have hrest : ∀ r ∈ rest, r.name.isSome ∧ r.full_name.isSome :=
      fun r hmem => h r (List.mem_cons_of_mem _ hmem)
    simp [processLoop, processOneRepo_ok env repo hr.1 hr.2, ih hrest]

/-- C6 amended: when every selected record carries its name and full_name
keys, the batch produces exactly one entry per repository, pointwise — so
one repository failing (the E2B call raising, or returning a failed
result) yields a failed entry for that repository with its error message
and with `execution_skipped = false`, while every other repository still
contributes its own entry — and the agent result is success=true carrying
those entries. -/
theorem exec_batch_isolation (env : CodeExecutionEnv) (repos : List ExecRepoRecord)
    (h : ∀ r ∈ repos, r.name.isSome ∧ r.full_name.isSome) :
    processLoop env.e2b env.llmFunc repos = .ok (repos.map (entryForRepo env))
    ∧ (∀ r url msg, r.html_url = some url → env.e2b url = .raises msg →
        (entryForRepo env r).success = false
          ∧ (entryForRepo env r).execution_skipped = false
          ∧ (entryForRepo env r).error = some msg)
    ∧ (∀ r url er, r.html_url = some url → env.e2b url = .returns er →
        er.success = false →
        (entryForRepo env r).success = false
          ∧ (entryForRepo env r).execution_skipped = false
          ∧ (entryForRepo env r).error = er.error)
    ∧ (∀ strategy maxRepos, repos ≠ [] →
        ∃ d, codeExecutionProcess env repos strategy maxRepos
            = { success := true, data := some d, error := none }
          ∧ d.execution_results
              = (selectRepositoriesForExecution repos strategy maxRepos).map (entryForRepo env)) := by
  refine ⟨processLoop_ok env repos h, ?_, ?_, ?_⟩
  · intro r url msg hurl he2b
    simp [entryForRepo, executeRepository, hurl, he2b, failedExecEntry]
  · intro r url er hurl he2b hfail
    simp [entryForRepo, executeRepository, hurl, he2b, hfail, plainEntryOf]
  · intro strategy maxRepos hne
    have hsel : ∀ r ∈ selectRepositoriesForExecution repos strategy maxRepos,
        r.name.isSome ∧ r.full_name.isSome :=
      fun r hmem => h r ((select_sublist repos strategy maxRepos).subset hmem)
    have hloop := processLoop_ok env (selectRepositoriesForExecution repos strategy maxRepos) hsel
    have hne' : repos.isEmpty = false := by simpa [List.isEmpty_iff] using hne
    have hrun : codeExecutionProcess env repos strategy maxRepos
        = { success := true,
            data := some
              { execution_results :=
                  (selectRepositoriesForExecution repos strategy maxRepos).map (entryForRepo env),
                total_executed :=
                  some (selectRepositoriesForExecution repos strategy maxRepos).length,
                successful_executions :=
                  some (((selectRepositoriesForExecution repos strategy maxRepos).map
                    (entryForRepo env)).filter (fun r => r.success)).length,
                execution_strategy := some strategy,
                analysis := some (analyzeExecutionResults
                  ((selectRepositoriesForExecution repos strategy maxRepos).map (entryForRepo env))),
                has_runnable_code :=
                  some (((selectRepositoriesForExecution repos strategy maxRepos).map
                    (entryForRepo env)).any (fun r =>
                      r.success && decide (r.analysis.bind (fun a => a.project_type) ≠ some "unknown"))),
                message := none },
            error := none } := by
      simp only [codeExecutionProcess, hne', hloop, Bool.false_eq_true, if_false]
    exact ⟨_, hrun, rfl⟩

/-- The E2B answer for a healthy repository. -/
def wSuccessE2B : E2BRunResult :=
  { success := true, error := none, repo_url := some "https://github.com/u/other",
    analysis := some { project_type := some "python", dependencies := ["requests"] },
    install_output := some "exit code: 0", run_output := some "hello" }

/-- An execution environment in which cloning `u/tool` raises and any
other repository runs fine. -/
def wExecEnv : CodeExecutionEnv :=
  { e2b := fun url =>
      if url == "https://github.com/u/tool" then .raises "Git clone failed"
      else .returns wSuccessE2B,
    llmFunc := fun _ => none }

/-- C6 counterexample: in a two-repository batch where executing the first
repository raises "Git clone failed", the recorded entry for it is a
failed result with `execution_skipped = false` — not `true` as claimed —
and the second repository is still processed and contributes a successful
entry. -/
theorem exec_failure_not_skipped_counterexample :
    (codeExecutionProcess wExecEnv [wRepoHigh, wRepoMissing] "batch" 3).data.map
        (fun d => d.execution_results.map (fun e => (e.success, e.execution_skipped, e.error)))
      = some [(false, false, some "Git clone failed"), (true, false, none)] := by
  rfl

/-- Witness for the amended C6 theorem at the concrete failing batch. -/
theorem exec_batch_isolation_witness :
    processLoop wExecEnv.e2b wExecEnv.llmFunc [wRepoHigh, wRepoMissing]
        = .ok ([wRepoHigh, wRepoMissing].map (entryForRepo wExecEnv))
      ∧ (entryForRepo wExecEnv wRepoHigh).success = false
      ∧ (entryForRepo wExecEnv wRepoHigh).execution_skipped = false
      ∧ (entryForRepo wExecEnv wRepoHigh).error = some "Git clone failed" := by
  have h := exec_batch_isolation wExecEnv [wRepoHigh, wRepoMissing] (by decide)
  have hfail := h.2.1 wRepoHigh "https://github.com/u/tool" "Git clone failed" rfl rfl
  exact ⟨h.1, hfail.1, hfail.2.1, hfail.2.2⟩

/-! ## Content synthesis agent: tag generation
(`content_synthesis_agent.py`, `_generate_tags`, lines 320-373)

Tags accumulate into a Python `set`, then `sorted(list(tags))[:15]`; the
set is modelled as first-occurrence deduplication (`pyUnique`) — the set's
iteration order is irrelevant because the list is sorted before
truncation — and `sorted` as an insertion sort under the code-point order
`strLe`. -/

/-- An empty `analysis` dictionary as read through
`code_execution.get("analysis", {})`. -/
def emptyExecAnalysisOut : ExecAnalysisOut :=
  { message := none, total_repositories := none, successful_executions := none,
    success_rate := none, project_types_found := [], categories_found := [],
    technologies_used := [], has_runnable_code := false,
    complexity_distribution := [] }

def generateTags (contentAnalysis : ContentAnalysisData) (githubDiscovery : DiscoveryData)
    (codeExecution : CodeExecutionData) : List String :=
  let contentType := contentAnalysis.content_type.getD ""
  let t1 := ["tweetsmash", "bookmark"] ++ (if contentType != "" then [contentType] else [])
  let t2 := t1 ++ contentAnalysis.code_keywords.take 5
  let t3 := t2 ++ (if !githubDiscovery.discovered_repositories.isEmpty then
      "github" :: ((githubDiscovery.discovered_repositories.take 3).filterMap (fun r =>
        if jstrTruthy r.repo.language then some (pyToLower (jstrVal r.repo.language)) else none))
    else [])
  let analysis := codeExecution.analysis.getD emptyExecAnalysisOut
  let t4 := t3 ++ analysis.project_types_found ++ analysis.categories_found
  let t5 := t4 ++ (if codeExecution.has_runnable_code.getD false then ["executable"] else [])
  let t6 := t5 ++ (if analysis.success_rate.getD 0 > 0.8 then ["high_quality"] else [])
  let t7 := t6 ++ ["priority_" ++ contentAnalysis.processing_priority.getD "low"]
  (List.insertionSort strLe (pyUnique t7)).take 15

theorem pyUnique_aux_nodup :
    ∀ (l acc : List String), acc.Nodup →
      (l.foldl (fun acc x => if acc.contains x then acc else acc ++ [x]) acc).Nodup := by
  intro l
  induction l with
  | nil => exact fun acc h => h
  | cons x xs ih =>
    intro acc hacc
    rw [List.foldl_cons]
    by_cases hc : acc.contains x = true
    · rw [if_pos hc]
      exact ih acc hacc
    · rw [if_neg hc]
      refine ih _ ?_
      have hxmem : x ∉ acc := fun hmem => hc (by simpa using hmem)
      rw [(List.perm_append_singleton x acc).nodup_iff]
      exact List.nodup_cons.mpr ⟨hxmem, hacc⟩

theorem pyUnique_nodup (l : List String) : (pyUnique l).Nodup :=
  pyUnique_aux_nodup l [] List.nodup_nil

/-- C9: for every combination of content-analysis, discovery and execution
inputs (including the empty discovery/execution data the orchestrator
substitutes), the generated tag list has at most 15 entries, contains no
duplicates, and is sorted ascending in the code-point (lexicographic)
order `strLe`. -/
theorem generate_tags_invariants (ca : ContentAnalysisData) (gd : DiscoveryData)
    (ce : CodeExecutionData) :
    (generateTags ca gd ce).length ≤ 15
    ∧ (generateTags ca gd ce).Nodup
    ∧ (generateTags ca gd ce).Sorted strLe := by
  unfold generateTags
  refine ⟨?_, ?_, ?_⟩
  · rw [List.length_take]
    exact min_le_left _ _
  · exact List.Nodup.sublist (List.take_sublist _ _)
      ((List.perm_insertionSort strLe _).symm.nodup (pyUnique_nodup _))
  · exact List.Pairwise.sublist (List.take_sublist _ _)
      (List.sorted_insertionSort strLe _)

/-! ## Agent orchestrator (`orchestrator.py`)

`process_bookmark` coordinates four agent calls.  Each agent's `process`
is fully wrapped in try/except and so returns a result dictionary; the
orchestrator additionally wraps the first three calls (and the main-path
synthesis call) in `asyncio.wait_for`.  An agent's behaviour for one run
is an oracle (`AgentBehavior`); a separate Boolean oracle per wrapped call
says whether its deadline elapsed (`_run_with_timeout` then returns the
timeout error dictionary).  Wall-clock `timing` fields and the
`pipeline_results` debug payload are not modelled; Python `str(KeyError)`
texts are rendered as "KeyError: key".  The returned trace of `StageCall`s
records which agents were invoked, with which deadline, and — for
synthesis — with which input dictionary. -/

structure Bookmark where
  post_id : Option String
  tweet_text : String
deriving DecidableEq, Repr

structure PipelineConfig where
  discovery_strategy : String
  execution_strategy : String
  synthesis_style : String
  max_repositories : Nat
  enable_parallel_execution : Bool
  timeout_per_agent : Nat
deriving DecidableEq, Repr

/-- The caller-supplied `pipeline_config` dictionary: present keys
override the defaults of `process_bookmark` (lines 46-54). -/
structure PipelineConfigOverrides where
  discovery_strategy : Option String
  execution_strategy : Option String
  synthesis_style : Option String
  max_repositories : Option Nat
  enable_parallel_execution : Option Bool
  timeout_per_agent : Option Nat
deriving DecidableEq, Repr

def mergeConfig : Option PipelineConfigOverrides → PipelineConfig
  | none =>
    { discovery_strategy := "aggressive", execution_strategy := "quick",
      synthesis_style := "detailed", max_repositories := 3,
      enable_parallel_execution := true, timeout_per_agent := 60 }
  | some o =>
    { discovery_strategy := o.discovery_strategy.getD "aggressive",
      execution_strategy := o.execution_strategy.getD "quick",
      synthesis_style := o.synthesis_style.getD "detailed",
      max_repositories := o.max_repositories.getD 3,
      enable_parallel_execution := o.enable_parallel_execution.getD true,
      timeout_per_agent := o.timeout_per_agent.getD 60 }

/-- The metadata dictionary inside a synthesis result (the orchestrator
spreads it into the final report's metadata). -/
structure SynthMetadata where
  pipeline_version : Option String
  agents_used : List String
  original_bookmark_id : Option String
  github_repositories_count : Option Nat
  execution_success_rate : Option ℚ
  content_analysis_score : Option ℚ
  synthesis_style : Option String
deriving DecidableEq, Repr

/-- The data payload of a synthesis result as the orchestrator reads it
(`synthesis_data.get(...)`). -/
structure SynthesisData where
  title : Option String
  synthesized_content : Option String
  actionable_items : List String
  tags : List String
  metadata : SynthMetadata
deriving DecidableEq, Repr

/-- The input dictionary the orchestrator passes to
`ContentSynthesisAgent.process`. -/
structure SynthesisInput where
  original_bookmark : Bookmark
  content_analysis : ContentAnalysisData
  github_discovery : DiscoveryData
  code_execution : CodeExecutionData
  synthesis_style : String

/-- `{"discovered_repositories": []}` as read through the synthesis
agent's `get` calls. -/
def emptyDiscoveryData : DiscoveryData :=
  { discovered_repositories := [], total_found := none, discovery_strategy := none,
    direct_urls_processed := none, mentions_processed := none,
    has_high_confidence_repos := none }

/-- `{"execution_results": [], "analysis": {}}` as read through `get`
calls downstream. -/
def emptyCodeExecutionData : CodeExecutionData :=
  { execution_results := [], analysis := some emptyExecAnalysisOut,
    total_executed := none, successful_executions := none,
    execution_strategy := none, has_runnable_code := none, message := none }

/-- What awaiting one agent coroutine does: return its result dictionary,
or raise. -/
inductive AgentBehavior (α : Type) where
  | returns (r : AgentResult α)
  | raises (msg : String)

structure PipelineEnv where
  contentAnalysis : AgentBehavior ContentAnalysisData
  contentAnalysisTimedOut : Bool
  discovery : AgentBehavior DiscoveryData
  discoveryTimedOut : Bool
  execution : AgentBehavior CodeExecutionData
  executionTimedOut : Bool
  synthesis : SynthesisInput → AgentBehavior SynthesisData
  synthesisTimedOut : Bool

/-- `AgentOrchestrator._run_with_timeout` (lines 277-300). -/
def runWithTimeout {α : Type} (behavior : AgentBehavior α) (timedOut : Bool)
    (timeoutSeconds : Nat) : AgentResult α :=
  if timedOut then
    { success := false, data := none,
      error := some ("Agent timed out after " ++ toString timeoutSeconds ++ " seconds") }
  else
    match behavior with
    | .returns r => r
    | .raises msg => { success := false, data := none, error := some msg }

inductive StageCall where
  | contentAnalysis (timeoutSeconds : Nat)
  | githubDiscovery (timeoutSeconds : Nat)
  | codeExecution (timeoutSeconds : Nat)
  | contentSynthesis (timeoutSeconds : Option Nat) (input : SynthesisInput)

structure ReportMetadata where
  synth : SynthMetadata
  processing_type : Option String
  repositories_discovered : Option Nat
  repositories_executed : Option Nat
  github_relevance_score : ℚ
deriving DecidableEq, Repr

structure SuccessReport where
  bookmark_id : Option String
  title : Option String
  content : Option String
  actionable_items : List String
  tags : List String
  metadata : ReportMetadata
deriving DecidableEq, Repr

inductive PipelineReport where
  | ok (r : SuccessReport)
  | err (msg : String)
deriving DecidableEq, Repr

def PipelineReport.isSuccess : PipelineReport → Bool
  | .ok _ => true
  | .err _ => false

/-- `_process_non_github_content` (lines 196-234): synthesis is called
directly (no deadline); its own try/except catches a raise or the
`KeyError` on a success result without data. -/
def processNonGithubContent (bookmark : Bookmark) (caData : ContentAnalysisData)
    (cfg : PipelineConfig) (env : PipelineEnv) (calls : List StageCall) :
    PipelineReport × List StageCall :=
  let si : SynthesisInput :=
    { original_bookmark := bookmark, content_analysis := caData,
      github_discovery := emptyDiscoveryData, code_execution := emptyCodeExecutionData,
      synthesis_style := cfg.synthesis_style }
  let calls2 := calls ++ [StageCall.contentSynthesis none si]
  match env.synthesis si with
  | .raises msg => (.err ("Non-GitHub content processing failed: " ++ msg), calls2)
  | .returns sRes =>
    if sRes.success then
      match sRes.data with
      | none => (.err ("Non-GitHub content processing failed: " ++ "KeyError: data"), calls2)
      | some sd =>
        (.ok { bookmark_id := bookmark.post_id, title := sd.title,
               content := sd.synthesized_content,
               actionable_items := sd.actionable_items, tags := sd.tags,
               metadata := ReportMetadata.mk sd.metadata (some "non_github_content")
                 none none caData.github_relevance_score }, calls2)
    else (.err "Synthesis failed for non-GitHub content", calls2)

/-- `_process_without_execution` (lines 236-275). -/
def processWithoutExecution (bookmark : Bookmark) (caData : ContentAnalysisData)
    (gdData : DiscoveryData) (cfg : PipelineConfig) (env : PipelineEnv)
    (calls : List StageCall) : PipelineReport × List StageCall :=
  let si : SynthesisInput :=
    { original_bookmark := bookmark, content_analysis := caData,
      github_discovery := gdData, code_execution := emptyCodeExecutionData,
      synthesis_style := cfg.synthesis_style }
  let calls2 := calls ++ [StageCall.contentSynthesis none si]
  match env.synthesis si with
  | .raises msg => (.err ("GitHub analysis processing failed: " ++ msg), calls2)
  | .returns sRes =>
    if sRes.success then
      match sRes.data with
      | none => (.err ("GitHub analysis processing failed: " ++ "KeyError: data"), calls2)
      | some sd =>
        (.ok { bookmark_id := bookmark.post_id, title := sd.title,
               content := sd.synthesized_content,
               actionable_items := sd.actionable_items, tags := sd.tags,
               metadata := ReportMetadata.mk sd.metadata (some "github_analysis_only")
                 none none caData.github_relevance_score }, calls2)
    else (.err "Synthesis failed for GitHub analysis", calls2)

/-- Step 4 of the main path (lines 143-190): synthesis under the standard
deadline, then the final report. -/
def mainSynthesis (bookmark : Bookmark) (caData : ContentAnalysisData)
    (gdData : DiscoveryData) (ceData : CodeExecutionData) (cfg : PipelineConfig)
    (env : PipelineEnv) (calls : List StageCall) : PipelineReport × List StageCall :=
  let si : SynthesisInput :=
    { original_bookmark := bookmark, content_analysis := caData,
      github_discovery := gdData, code_execution := ceData,
      synthesis_style := cfg.synthesis_style }
  let sRes := runWithTimeout (env.synthesis si) env.synthesisTimedOut cfg.timeout_per_agent
  let calls2 := calls ++ [StageCall.contentSynthesis (some cfg.timeout_per_agent) si]
  if sRes.success then
    match sRes.data with
    | none => (.err ("Pipeline failed: " ++ "KeyError: data"), calls2)
    | some sd =>
      (.ok { bookmark_id := bookmark.post_id, title := sd.title,
             content := sd.synthesized_content,
             actionable_items := sd.actionable_items, tags := sd.tags,
             metadata := ReportMetadata.mk sd.metadata none
               (some gdData.discovered_repositories.length)
               (some ceData.execution_results.length)
               caData.github_relevance_score }, calls2)
  else (.err "Content synthesis failed", calls2)

/-- `AgentOrchestrator.process_bookmark` (lines 27-194). -/
def processBookmark (bookmark : Bookmark) (pipelineConfig : Option PipelineConfigOverrides)
    (env : PipelineEnv) : PipelineReport × List StageCall :=
  let cfg := mergeConfig pipelineConfig
  let t := cfg.timeout_per_agent
  let caRes := runWithTimeout env.contentAnalysis env.contentAnalysisTimedOut t
  let calls1 := [StageCall.contentAnalysis t]
  if caRes.success then
    match caRes.data with
    | none => (.err ("Pipeline failed: " ++ "KeyError: data"), calls1)
    | some caData =>
      if (!caData.requires_github_discovery)
          && decide (caData.github_relevance_score < 0.3) then
        processNonGithubContent bookmark caData cfg env calls1
      else
        let gdRes := runWithTimeout env.discovery env.discoveryTimedOut t
        let calls2 := calls1 ++ [StageCall.githubDiscovery t]
        if gdRes.success then
          match gdRes.data with
          | none => (.err ("Pipeline failed: " ++ "KeyError: data"), calls2)
          | some gdData =>
            if gdData.discovered_repositories.isEmpty then
              processWithoutExecution bookmark caData gdData cfg env calls2
            else
              let ceRes := runWithTimeout env.execution env.executionTimedOut (t * 2)
              let calls3 := calls2 ++ [StageCall.codeExecution (t * 2)]
              if ceRes.success then
                match ceRes.data with
                | none => (.err ("Pipeline failed: " ++ "KeyError: data"), calls3)
                | some ceData => mainSynthesis bookmark caData gdData ceData cfg env calls3
              else
                mainSynthesis bookmark caData gdData emptyCodeExecutionData cfg env calls3
        else (.err "GitHub discovery failed", calls2)
  else (.err "Content analysis failed", calls1)

/-- An error message produced by the orchestrator always identifies the
originating stage or handler. -/
def errorNamesStage (msg : String) : Bool :=
  msg == "Content analysis failed" || msg == "GitHub discovery failed"
    || msg == "Content synthesis failed"
    || msg == "Synthesis failed for non-GitHub content"
    || msg == "Synthesis failed for GitHub analysis"
    || strStarts msg "Non-GitHub content processing failed: "
    || strStarts msg "GitHub analysis processing failed: "
    || strStarts msg "Pipeline failed: "

theorem charsHasPre_self_append (p rest : List Char) :
    charsHasPre p (p ++ rest) = true := by
  induction p with
  | nil => rfl
  | cons c cs ih => simp [charsHasPre, ih]

theorem strStarts_self_append (pre m : String) : strStarts (pre ++ m) pre = true := by
  unfold strStarts
  have hdata : (pre ++ m).data = pre.data ++ m.data := String.data_append pre m
  rw [hdata]
  exact charsHasPre_self_append pre.data m.data

/-- A pipeline report is a success report or a stage-naming error. -/
def reportOrStageError (p : PipelineReport) : Prop :=
  (∃ r, p = .ok r) ∨ (∃ msg, p = .err msg ∧ errorNamesStage msg = true)

theorem processNonGithubContent_wf (bookmark : Bookmark) (caData : ContentAnalysisData)
    (cfg : PipelineConfig) (env : PipelineEnv) (calls : List StageCall) :
    reportOrStageError (processNonGithubContent bookmark caData cfg env calls).1 := by
  simp only [processNonGithubContent]
  rcases hsy : env.synthesis
      { original_bookmark := bookmark, content_analysis := caData,
        github_discovery := emptyDiscoveryData, code_execution := emptyCodeExecutionData,
        synthesis_style := cfg.synthesis_style } with sRes | msg
  · simp only [hsy]
    by_cases hs : sRes.success = true
    · simp only [if_pos hs]
      cases hd : sRes.data with
      | none => exact Or.inr ⟨_, rfl, by decide⟩
      | some sd => exact Or.inl ⟨_, rfl⟩
    · simp only [if_neg hs]
      exact Or.inr ⟨_, rfl, by decide⟩
  · simp only [hsy]
    exact Or.inr ⟨_, rfl, by
      simp [errorNamesStage, strStarts_self_append]⟩

theorem processWithoutExecution_wf (bookmark : Bookmark) (caData : ContentAnalysisData)
    (gdData : DiscoveryData) (cfg : PipelineConfig) (env : PipelineEnv)
    (calls : List StageCall) :
    reportOrStageError (processWithoutExecution bookmark caData gdData cfg env calls).1 := by
  simp only [processWithoutExecution]
  rcases hsy : env.synthesis
      { original_bookmark := bookmark, content_analysis := caData,
        github_discovery := gdData, code_execution := emptyCodeExecutionData,
        synthesis_style := cfg.synthesis_style } with sRes | msg
  · simp only [hsy]
    by_cases hs : sRes.success = true
    · simp only [if_pos hs]
      cases hd : sRes.data with
      | none => exact Or.inr ⟨_, rfl, by decide⟩
      | some sd => exact Or.inl ⟨_, rfl⟩
    · simp only [if_neg hs]
      exact Or.inr ⟨_, rfl, by decide⟩
  · simp only [hsy]
    exact Or.inr ⟨_, rfl, by
      simp [errorNamesStage, strStarts_self_append]⟩

theorem mainSynthesis_wf (bookmark : Bookmark) (caData : ContentAnalysisData)
    (gdData : DiscoveryData) (ceData : CodeExecutionData) (cfg : PipelineConfig)
    (env : PipelineEnv) (calls : List StageCall) :
    reportOrStageError (mainSynthesis bookmark caData gdData ceData cfg env calls).1 := by
  simp only [mainSynthesis]
  by_cases hs : (runWithTimeout (env.synthesis
      { original_bookmark := bookmark, content_analysis := caData,
        github_discovery := gdData, code_execution := ceData,
        synthesis_style := cfg.synthesis_style })
      env.synthesisTimedOut cfg.timeout_per_agent).success = true
  · simp only [if_pos hs]
    cases hd : (runWithTimeout (env.synthesis
        { original_bookmark := bookmark, content_analysis := caData,
          github_discovery := gdData, code_execution := ceData,
          synthesis_style := cfg.synthesis_style })
        env.synthesisTimedOut cfg.timeout_per_agent).data with
    | none => simp only [hd]; exact Or.inr ⟨_, rfl, by decide⟩
    | some sd => simp only [hd]; exact Or.inl ⟨_, rfl⟩
  · simp only [if_neg hs]
    exact Or.inr ⟨_, rfl, by decide⟩

/-- C1: for every bookmark, configuration and agent behaviour — including
agents raising, timing out, failing, or succeeding without data — the
orchestrator returns a report that is either a success report or a failure
whose error message names the originating stage; no exception escapes to
the caller. -/
theorem process_bookmark_always_reports (bookmark : Bookmark)
    (pipelineConfig : Option PipelineConfigOverrides) (env : PipelineEnv) :
    (∃ r, (processBookmark bookmark pipelineConfig env).1 = .ok r)
    ∨ (∃ msg, (processBookmark bookmark pipelineConfig env).1 = .err msg
        ∧ errorNamesStage msg = true) := by
  have main : reportOrStageError (processBookmark bookmark pipelineConfig env).1 := by
    simp only [processBookmark]
    by_cases hca : (runWithTimeout env.contentAnalysis env.contentAnalysisTimedOut
        (mergeConfig pipelineConfig).timeout_per_agent).success = true
    · simp only [if_pos hca]
      cases hdat : (runWithTimeout env.contentAnalysis env.contentAnalysisTimedOut
          (mergeConfig pipelineConfig).timeout_per_agent).data with
      | none => simp only [hdat]; exact Or.inr ⟨_, rfl, by decide⟩
      | some caData =>
        simp only [hdat]
        by_cases hbr : (!caData.requires_github_discovery
            && decide (caData.github_relevance_score < 0.3)) = true
        · simp only [if_pos hbr]
          exact processNonGithubContent_wf bookmark caData _ env _
        · simp only [if_neg hbr]
          by_cases hgd : (runWithTimeout env.discovery env.discoveryTimedOut
              (mergeConfig pipelineConfig).timeout_per_agent).success = true
          · simp only [if_pos hgd]
            cases hgdat : (runWithTimeout env.discovery env.discoveryTimedOut
                (mergeConfig pipelineConfig).timeout_per_agent).data with
            | none => simp only [hgdat]; exact Or.inr ⟨_, rfl, by decide⟩
            | some gdData =>
              simp only [hgdat]
              by_cases hempty : gdData.discovered_repositories.isEmpty = true
              · simp only [if_pos hempty]
                exact processWithoutExecution_wf bookmark caData gdData _ env _
              · simp only [if_neg hempty]
                by_cases hce : (runWithTimeout env.execution env.executionTimedOut
                    ((mergeConfig pipelineConfig).timeout_per_agent * 2)).success = true
                · simp only [if_pos hce]
                  cases hcedat : (runWithTimeout env.execution env.executionTimedOut
                      ((mergeConfig pipelineConfig).timeout_per_agent * 2)).data with
                  | none => simp only [hcedat]; exact Or.inr ⟨_, rfl, by decide⟩
                  | some ceData =>
                    simp only [hcedat]
                    exact mainSynthesis_wf bookmark caData gdData ceData _ env _
                · simp only [if_neg hce]
                  exact mainSynthesis_wf bookmark caData gdData emptyCodeExecutionData _ env _
          · simp only [if_neg hgd]
            exact Or.inr ⟨_, rfl, by decide⟩
    · simp only [if_neg hca]
      exact Or.inr ⟨_, rfl, by decide⟩
  exact main

theorem processNonGithubContent_trace (bookmark : Bookmark) (caData : ContentAnalysisData)
    (cfg : PipelineConfig) (env : PipelineEnv) (calls : List StageCall) :
    (processNonGithubContent bookmark caData cfg env calls).2
      = calls ++ [StageCall.contentSynthesis none
          { original_bookmark := bookmark, content_analysis := caData,
            github_discovery := emptyDiscoveryData, code_execution := emptyCodeExecutionData,
            synthesis_style := cfg.synthesis_style }] := by
  simp only [processNonGithubContent]
  rcases hsy : env.synthesis
      { original_bookmark := bookmark, content_analysis := caData,
        github_discovery := emptyDiscoveryData, code_execution := emptyCodeExecutionData,
        synthesis_style := cfg.synthesis_style } with sRes | msg
  · simp only [hsy]
    by_cases hs : sRes.success = true
    · simp only [if_pos hs]
      cases hd : sRes.data <;> simp only [hd]
    · simp only [if_neg hs]
  · simp only [hsy]

theorem mainSynthesis_trace (bookmark : Bookmark) (caData : ContentAnalysisData)
    (gdData : DiscoveryData) (ceData : CodeExecutionData) (cfg : PipelineConfig)
    (env : PipelineEnv) (calls : List StageCall) :
    (mainSynthesis bookmark caData gdData ceData cfg env calls).2
      = calls ++ [StageCall.contentSynthesis (some cfg.timeout_per_agent)
          { original_bookmark := bookmark, content_analysis := caData,
            github_discovery := gdData, code_execution := ceData,
            synthesis_style := cfg.synthesis_style }] := by
  simp only [mainSynthesis]
  by_cases hs : (runWithTimeout (env.synthesis
      { original_bookmark := bookmark, content_analysis := caData,
        github_discovery := gdData, code_execution := ceData,
        synthesis_style := cfg.synthesis_style })
      env.synthesisTimedOut cfg.timeout_per_agent).success = true
  · simp only [if_pos hs]
    cases hd : (runWithTimeout (env.synthesis
        { original_bookmark := bookmark, content_analysis := caData,
          github_discovery := gdData, code_execution := ceData,
          synthesis_style := cfg.synthesis_style })
        env.synthesisTimedOut cfg.timeout_per_agent).data <;> simp only [hd]
  · simp only [if_neg hs]

/-- C2: whenever content analysis succeeds with requires_github_discovery
= false and github_relevance_score < 0.3, the orchestrator invokes only
content analysis and synthesis — neither repository discovery nor code
execution appears in the trace — and synthesis receives empty GitHub and
execution data; if that synthesis call succeeds, the final result is a
success report whose metadata carries processing_type =
"non_github_content". -/
theorem non_github_branch (bookmark : Bookmark)
    (pipelineConfig : Option PipelineConfigOverrides) (env : PipelineEnv)
    (caRes : AgentResult ContentAnalysisData) (caData : ContentAnalysisData)
    (hca : env.contentAnalysis = .returns caRes)
    (hcat : env.contentAnalysisTimedOut = false)
    (hsucc : caRes.success = true) (hdata : caRes.data = some caData)
    (hreq : caData.requires_github_discovery = false)
    (hscore : caData.github_relevance_score < 0.3) :
    (processBookmark bookmark pipelineConfig env).2
        = [StageCall.contentAnalysis (mergeConfig pipelineConfig).timeout_per_agent,
           StageCall.contentSynthesis none
             { original_bookmark := bookmark, content_analysis := caData,
               github_discovery := emptyDiscoveryData,
               code_execution := emptyCodeExecutionData,
               synthesis_style := (mergeConfig pipelineConfig).synthesis_style }]
    ∧ (∀ sRes sd, env.synthesis
          { original_bookmark := bookmark, content_analysis := caData,
            github_discovery := emptyDiscoveryData,
            code_execution := emptyCodeExecutionData,
            synthesis_style := (mergeConfig pipelineConfig).synthesis_style } = .returns sRes →
        sRes.success = true → sRes.data = some sd →
        (processBookmark bookmark pipelineConfig env).1
          = .ok { bookmark_id := bookmark.post_id, title := sd.title,
                  content := sd.synthesized_content,
                  actionable_items := sd.actionable_items, tags := sd.tags,
                  metadata := ReportMetadata.mk sd.metadata (some "non_github_content")
                    none none caData.github_relevance_score }) := by
  have hrun : runWithTimeout env.contentAnalysis env.contentAnalysisTimedOut
      (mergeConfig pipelineConfig).timeout_per_agent = caRes := by
    rw [hca, hcat]; rfl
  have hbranch : (!caData.requires_github_discovery
      && decide (caData.github_relevance_score < 0.3)) = true := by
    simp [hreq, hscore]
  have hpb : processBookmark bookmark pipelineConfig env
      = processNonGithubContent bookmark caData (mergeConfig pipelineConfig) env
          [StageCall.contentAnalysis (mergeConfig pipelineConfig).timeout_per_agent] := by
    simp only [processBookmark, hrun, hsucc, hdata, hbranch, eq_self_iff_true, if_true]
  constructor
  · rw [hpb, processNonGithubContent_trace]
    rfl
  · intro sRes sd hsy hs hd
    rw [hpb]
    simp only [processNonGithubContent, hsy, if_pos hs, hd]

/-- C3: when the GitHub path is taken, repositories were discovered, and
the code-execution stage fails (its agent raising, reporting failure, or
its deadline — twice the per-stage timeout, as the recorded
`codeExecution (t * 2)` call shows — elapsing), the orchestrator still
invokes synthesis, passing empty execution data, and if synthesis succeeds
the pipeline result is success=true. -/
theorem execution_failure_nonfatal (bookmark : Bookmark)
    (pipelineConfig : Option PipelineConfigOverrides) (env : PipelineEnv)
    (caRes : AgentResult ContentAnalysisData) (caData : ContentAnalysisData)
    (gdRes : AgentResult DiscoveryData) (gdData : DiscoveryData)
    (hca : env.contentAnalysis = .returns caRes)
    (hcat : env.contentAnalysisTimedOut = false)
    (hsucc : caRes.success = true) (hdata : caRes.data = some caData)
    (hbranch : caData.requires_github_discovery = true
      ∨ ¬ caData.github_relevance_score < 0.3)
    (hgd : env.discovery = .returns gdRes) (hgdt : env.discoveryTimedOut = false)
    (hgsucc : gdRes.success = true) (hgdata : gdRes.data = some gdData)
    (hne : gdData.discovered_repositories ≠ [])
    (hexecfail : (runWithTimeout env.execution env.executionTimedOut
        ((mergeConfig pipelineConfig).timeout_per_agent * 2)).success = false) :
    (processBookmark bookmark pipelineConfig env).2
        = [StageCall.contentAnalysis (mergeConfig pipelineConfig).timeout_per_agent,
           StageCall.githubDiscovery (mergeConfig pipelineConfig).timeout_per_agent,
           StageCall.codeExecution ((mergeConfig pipelineConfig).timeout_per_agent * 2),
           StageCall.contentSynthesis (some (mergeConfig pipelineConfig).timeout_per_agent)
             { original_bookmark := bookmark, content_analysis := caData,
               github_discovery := gdData, code_execution := emptyCodeExecutionData,
               synthesis_style := (mergeConfig pipelineConfig).synthesis_style }]
    ∧ (∀ sRes sd, env.synthesisTimedOut = false →
        env.synthesis
          { original_bookmark := bookmark, content_analysis := caData,
            github_discovery := gdData, code_execution := emptyCodeExecutionData,
            synthesis_style := (mergeConfig pipelineConfig).synthesis_style } = .returns sRes →
        sRes.success = true → sRes.data = some sd →
        (processBookmark bookmark pipelineConfig env).1.isSuccess = true) := by
  have hrun : runWithTimeout env.contentAnalysis env.contentAnalysisTimedOut
      (mergeConfig pipelineConfig).timeout_per_agent = caRes := by
    rw [hca, hcat]; rfl
  have hbr : (!caData.requires_github_discovery
      && decide (caData.github_relevance_score < 0.3)) = false := by
    rcases hbranch with h | h
    · simp [h]
    · simp [h]
  have hgrun : runWithTimeout env.discovery env.discoveryTimedOut
      (mergeConfig pipelineConfig).timeout_per_agent = gdRes := by
    rw [hgd, hgdt]; rfl
  have hne' : gdData.discovered_repositories.isEmpty = false := by
    simpa [List.isEmpty_iff] using hne
  have hpb : processBookmark bookmark pipelineConfig env
      = mainSynthesis bookmark caData gdData emptyCodeExecutionData
          (mergeConfig pipelineConfig) env
          [StageCall.contentAnalysis (mergeConfig pipelineConfig).timeout_per_agent,
           StageCall.githubDiscovery (mergeConfig pipelineConfig).timeout_per_agent,
           StageCall.codeExecution ((mergeConfig pipelineConfig).timeout_per_agent * 2)] := by
    simp only [processBookmark, hrun, hsucc, hdata, hbr, Bool.false_eq_true, if_false,
      hgrun, hgsucc, hgdata, eq_self_iff_true, if_true, hne', hexecfail]
    rfl
  constructor
  · rw [hpb, mainSynthesis_trace]
    rfl
  · intro sRes sd hst hsy hs hd
    rw [hpb]
    simp [mainSynthesis, runWithTimeout, hst, hsy, hs, hd, PipelineReport.isSuccess]

/-- A bookmark with no code-related content. -/
def wBookmark : Bookmark :=
  { post_id := some "post-1", tweet_text := "Beautiful sunset today!" }

/-- Content analysis of "Beautiful sunset today!": no URLs, no mentions,
no keywords, relevance 0, discovery not required. -/
def wSunsetCA : ContentAnalysisData :=
  { tweet_text := "Beautiful sunset today!", direct_github_urls := [],
    github_mentions := [], content_type := some "other", code_keywords := [],
    author_github_candidate := "", github_relevance_score := 0,
    requires_github_discovery := false, processing_priority := some "low" }

def wSynthMeta : SynthMetadata :=
  { pipeline_version := some "1.0", agents_used := [],
    original_bookmark_id := some "post-1", github_repositories_count := some 0,
    execution_success_rate := some 0, content_analysis_score := some 0,
    synthesis_style := some "detailed" }

def wSynthData : SynthesisData :=
  { title := some "Other by Unknown", synthesized_content := some "summary",
    actionable_items := [], tags := ["bookmark", "tweetsmash"],
    metadata := wSynthMeta }

def wEnvNonGithub : PipelineEnv :=
  { contentAnalysis := .returns ⟨true, some wSunsetCA, none⟩,
    contentAnalysisTimedOut := false,
    discovery := .raises "not invoked", discoveryTimedOut := false,
    execution := .raises "not invoked", executionTimedOut := false,
    synthesis := fun _ => .returns ⟨true, some wSynthData, none⟩,
    synthesisTimedOut := false }

/-- Witness for C2 on the sunset bookmark: the trace holds exactly content
analysis and synthesis, and the result is the success report tagged
non_github_content. -/
theorem non_github_branch_witness :
    (processBookmark wBookmark none wEnvNonGithub).2
        = [StageCall.contentAnalysis 60,
           StageCall.contentSynthesis none
             { original_bookmark := wBookmark, content_analysis := wSunsetCA,
               github_discovery := emptyDiscoveryData,
               code_execution := emptyCodeExecutionData,
               synthesis_style := "detailed" }]
    ∧ (processBookmark wBookmark none wEnvNonGithub).1
        = .ok { bookmark_id := some "post-1", title := some "Other by Unknown",
                content := some "summary", actionable_items := [],
                tags := ["bookmark", "tweetsmash"],
                metadata := ReportMetadata.mk wSynthMeta (some "non_github_content")
                  none none 0 } := by
  have h := non_github_branch wBookmark none wEnvNonGithub
    ⟨true, some wSunsetCA, none⟩ wSunsetCA rfl rfl rfl rfl rfl
    (by norm_num [wSunsetCA])
  exact ⟨h.1, h.2 ⟨true, some wSynthData, none⟩ wSynthData rfl rfl rfl⟩

/-- Content analysis of a GitHub announcement: relevance 0.75. -/
def wGithubCA : ContentAnalysisData :=
  { tweet_text := "Just built a python tool github.com/alice/pytool",
    direct_github_urls := ["https://github.com/alice/pytool"],
    github_mentions := [], content_type := some "showcase",
    code_keywords := ["python"], author_github_candidate := "alice",
    github_relevance_score := 0.75, requires_github_discovery := false,
    processing_priority := some "high" }

def wEnriched : EnrichedRepo :=
  { repo := wDiscRepo, confidence_score := 0.9,
    discovery_method := "direct_validation", is_active := true,
    complexity_score := 0.2, relevance_indicators := [],
    rank := some 1, ranking_score := some 1 }

def wDiscData : DiscoveryData :=
  { discovered_repositories := [wEnriched], total_found := some 1,
    discovery_strategy := some "aggressive", direct_urls_processed := some 1,
    mentions_processed := some 0, has_high_confidence_repos := some true }

def wEnvExecFail : PipelineEnv :=
  { contentAnalysis := .returns ⟨true, some wGithubCA, none⟩,
    contentAnalysisTimedOut := false,
    discovery := .returns ⟨true, some wDiscData, none⟩, discoveryTimedOut := false,
    execution := .raises "E2B sandbox unavailable", executionTimedOut := false,
    synthesis := fun _ => .returns ⟨true, some wSynthData, none⟩,
    synthesisTimedOut := false }

/-- Witness for C3: execution raises, yet the trace shows the doubled
deadline (120 = 60 * 2), synthesis runs on empty execution data, and the
pipeline reports success. -/
theorem execution_failure_nonfatal_witness :
    (processBookmark wBookmark none wEnvExecFail).2
        = [StageCall.contentAnalysis 60, StageCall.githubDiscovery 60,
           StageCall.codeExecution 120,
           StageCall.contentSynthesis (some 60)
             { original_bookmark := wBookmark, content_analysis := wGithubCA,
               github_discovery := wDiscData,
               code_execution := emptyCodeExecutionData,
               synthesis_style := "detailed" }]
    ∧ (processBookmark wBookmark none wEnvExecFail).1.isSuccess = true := by
  have h := execution_failure_nonfatal wBookmark none wEnvExecFail
    ⟨true, some wGithubCA, none⟩ wGithubCA
    ⟨true, some wDiscData, none⟩ wDiscData
    rfl rfl rfl rfl
    (Or.inr (by norm_num [wGithubCA]))
    rfl rfl rfl rfl
    (List.cons_ne_nil _ _)
    rfl
  exact ⟨h.1, h.2 ⟨true, some wSynthData, none⟩ wSynthData rfl rfl rfl rfl⟩

end TweetSmash
